import Mathlib

/-!
Verification development for the `tdwu/flv.js` core: a shallow embedding of
`src/io/io-controller.js` (the adaptive ingestion controller with its stash
buffer) and `src/demux/h264-demuxer.js` (the H.264 demultiplexer), together
with theorems settling the frozen specification claims.

Conventions of the embedding:
* JavaScript numbers holding byte counts and sizes are `Nat`; fields that the
  source initializes to `-1` or sets from `to = -1` sentinels (`_currentRange.to`,
  `lastByteStart`, `_resumeFrom`) are `Int`.
* `ArrayBuffer` contents are `List Nat`; typed-array element reads reduce
  values `% 256` exactly as `Uint8Array`/`DataView` do.  Out-of-bounds
  `DataView` reads and typed-array constructions are modelled as
  `Except`-errors (`RangeError` in JavaScript).
* External collaborators are inputs: the downstream consumer
  (`onDataArrival`) is a function from (size, byteStart) to a consumed count,
  the throughput sampler's reading is passed into each data-arrival event, and
  the SPS bitstream decoder is a function parameter.
* Observable callbacks (dispatches, loader open/abort, completion, errors,
  seeked/recovered notifications) are collected into an action trace.
-/

/-! ## IO controller: state and actions (`src/io/io-controller.js`) -/

/-- Error kinds surfaced by loaders (`LoaderErrors` in `loader.js`). -/
inductive LoaderErrKind where
  | earlyEof
  | unrecoverableEarlyEof
  | connectingTimeout
  | httpStatusCodeInvalid
  | exception
deriving DecidableEq

/-- Observable effects of the controller: chunk dispatches to the consumer,
loader lifecycle calls and upward notifications. -/
inductive IOAction where
  | dispatch (size : Nat) (byteStart : Nat) (consumed : Nat)
  | dropData (remain : Nat)
  | abortLoader
  | openLoader (fromByte : Int)
  | notifySeeked
  | notifyComplete
  | notifyError (kind : LoaderErrKind)
  | notifyRecovered
deriving DecidableEq

/-- The consumer callback `onDataArrival(chunk, byteStart): consumed`;
decisions in the controller depend only on the chunk's byte length and its
absolute offset, so the consumer is a function of those. -/
def Consumer : Type := Nat → Nat → Nat

/-- Mutable fields of `IOController` that the embedded operations touch.
`loaderWorking` stands for `this._loader.isWorking()`. -/
structure IOCState where
  stashInitialSize : Nat
  stashUsed : Nat
  stashSize : Nat
  bufferSize : Nat
  stashByteStart : Nat
  enableStash : Bool
  rangeFrom : Int
  rangeTo : Int
  totalLength : Option Nat
  fullRequestFlag : Bool
  speedNormalized : Nat
  isEarlyEofReconnecting : Bool
  paused : Bool
  resumeFrom : Int
  lastByteStart : Int
  isLive : Bool
  loaderWorking : Bool
deriving DecidableEq

/-- Constructor state of `IOController` (`constructor`): default stash initial
size is 384 KiB, the backing buffer starts at 3 MiB, `lastByteStart = -1`. -/
def initIOCState (stashInitialSize : Nat) (enableStash isLive : Bool)
    (filesize : Option Nat) : IOCState :=
  { stashInitialSize := stashInitialSize
    stashUsed := 0
    stashSize := stashInitialSize
    bufferSize := 1024 * 1024 * 3
    stashByteStart := 0
    enableStash := enableStash
    rangeFrom := 0
    rangeTo := -1
    totalLength := filesize
    fullRequestFlag := false
    speedNormalized := 0
    isEarlyEofReconnecting := false
    paused := false
    resumeFrom := 0
    lastByteStart := -1
    isLive := isLive
    loaderWorking := false }

/-- Predicate helpers on actions used to count dispatches / opens / errors. -/
def IOAction.isDispatch : IOAction → Bool
  | .dispatch _ _ _ => true
  | _ => false

def IOAction.isOpen : IOAction → Bool
  | .openLoader _ => true
  | _ => false

def IOAction.isErr : IOAction → Bool
  | .notifyError _ => true
  | _ => false

def IOAction.isDrop : IOAction → Bool
  | .dropData _ => true
  | _ => false

/-- The doubling loop of `_expandBuffer`:
`while (bufferNewSize + 1024*1024*1 < expectedBytes) bufferNewSize *= 2`.
The loop is given `expected` units of fuel, which always suffices when the
starting value is at least 1 (the value doubles every iteration). -/
def _expandLoop (expected : Nat) : Nat → Nat → Nat
  | 0, b => b
  | fuel + 1, b =>
    if b + 1024 * 1024 * 1 < expected then _expandLoop expected fuel (b * 2) else b

/-- `_expandBuffer(expectedBytes)`: grow the backing buffer to
(doubled stash size) + 1 MiB; no-op when the computed size equals the current
one.  Copying the occupied region into the new buffer moves contents only, so
it has no footprint in this size-level model. -/
def _expandBuffer (st : IOCState) (expectedBytes : Nat) : IOCState :=
  let bufferNewSize := _expandLoop expectedBytes expectedBytes st.stashSize + 1024 * 1024 * 1
  if bufferNewSize = st.bufferSize then st
  else { st with bufferSize := bufferNewSize }

/-- `this._speedNormalizeList`. -/
def speedNormalizeList : List Nat :=
  [64, 128, 256, 384, 512, 768, 1024, 1536, 2048, 3072, 4096]

/-- Binary-search loop of `_normalizeSpeed`; the JavaScript `while` loop is
given fuel (the list length + 1 suffices).  Falling out of the loop returns
`undefined` in the source, modelled as `none` (unreachable for this list). -/
def _normalizeSpeedLoop (input : Nat) : Nat → Int → Int → Option Nat
  | 0, _, _ => none
  | fuel + 1, lbound, ubound =>
    if lbound ≤ ubound then
      let mid : Int := lbound + (ubound - lbound) / 2
      let last : Int := (speedNormalizeList.length : Int) - 1
      if mid = last ∨ (speedNormalizeList.getD mid.toNat 0 ≤ input ∧
          input < speedNormalizeList.getD (mid.toNat + 1) 0) then
        some (speedNormalizeList.getD mid.toNat 0)
      else if speedNormalizeList.getD mid.toNat 0 < input then
        _normalizeSpeedLoop input fuel (mid + 1) ubound
      else
        _normalizeSpeedLoop input fuel lbound (mid - 1)
    else none

/-- `_normalizeSpeed(input)`: greatest tier at most `input`, or the smallest
tier when `input` is below it. -/
def _normalizeSpeed (input : Nat) : Option Nat :=
  if input < speedNormalizeList.getD 0 0 then some (speedNormalizeList.getD 0 0)
  else
    _normalizeSpeedLoop input (speedNormalizeList.length + 1) 0
      ((speedNormalizeList.length : Int) - 1)

/-- `_adjustStashSize(normalized)`: pick the stash target for the tier
(live: the tier itself; bounded: tier, tier*1.5 or tier*2 by bracket, clamped
at 8192 KiB), expand the backing buffer if it is below target + 1 MiB, then
adopt the new target. -/
def _adjustStashSize (st : IOCState) (normalized : Nat) : IOCState :=
  let stashSizeKB :=
    if st.isLive then normalized
    else if normalized < 512 then normalized
    else if normalized ≤ 1024 then 3 * normalized / 2
    else normalized * 2
  let stashSizeKB := if 8192 < stashSizeKB then 8192 else stashSizeKB
  let bufferSize := stashSizeKB * 1024 + 1024 * 1024 * 1
  let st := if st.bufferSize < bufferSize then _expandBuffer st bufferSize else st
  { st with stashSize := stashSizeKB * 1024 }

/-- `_dispatchChunks(chunks, byteStart)`: update `_currentRange.to` to the
last byte of the dispatched block and return the consumer's consumed count. -/
def _dispatchChunks (C : Consumer) (st : IOCState) (size byteStart : Nat) :
    IOCState × Nat :=
  ({ st with rangeTo := (byteStart : Int) + (size : Int) - 1 }, C size byteStart)

/-- `_flushStashBuffer(dropUnconsumed)`: dispatch the occupied stash region
once; keep (compacting) or drop the unconsumed remainder according to the
flag.  Returns the new state, the emitted actions, and the source's return
value (the number of dropped bytes). -/
def _flushStashBuffer (C : Consumer) (st : IOCState) (dropUnconsumed : Bool) :
    IOCState × List IOAction × Nat :=
  if 0 < st.stashUsed then
    let len := st.stashUsed
    let start := st.stashByteStart
    let p := _dispatchChunks C st len start
    let st1 := p.1
    let consumed := p.2
    let remain := len - consumed
    if consumed < len then
      if dropUnconsumed then
        ({ st1 with stashUsed := 0, stashByteStart := 0 },
          [.dispatch len start consumed, .dropData remain], remain)
      else
        if 0 < consumed then
          ({ st1 with stashUsed := remain, stashByteStart := start + consumed },
            [.dispatch len start consumed], 0)
        else
          (st1, [.dispatch len start consumed], 0)
    else
      ({ st1 with stashUsed := 0, stashByteStart := 0 },
        [.dispatch len start consumed], remain)
  else (st, [], 0)

/-- Speed-tier portion of `_onLoaderChunkArrival` (the
`let KBps = ...; if (KBps !== 0) { ... }` block): when the sampler reports a
nonzero rate, normalize it and, on a changed tier, re-adjust the stash size. -/
def arrivalSpeedPart (st : IOCState) (kbps : Nat) : IOCState :=
  if kbps ≠ 0 then
    match _normalizeSpeed kbps with
    | some normalized =>
      if st.speedNormalized ≠ normalized then
        _adjustStashSize { st with speedNormalized := normalized } normalized
      else st
    | none => st
  else st

/-- Stash-disabled branch of `_onLoaderChunkArrival` (source block 【1】):
dispatch directly when no carry-over exists, stash the remainder; otherwise
merge into the stash, dispatch the merged block, and compact. -/
def arrivalStashDisabled (C : Consumer) (st : IOCState) (size byteStart : Nat) :
    IOCState × List IOAction :=
  if st.stashUsed = 0 then
    let p := _dispatchChunks C st size byteStart
    let st1 := p.1
    let consumed := p.2
    if consumed < size then
      let remain := size - consumed
      let st2 := if st1.bufferSize < remain then _expandBuffer st1 remain else st1
      ({ st2 with stashUsed := st2.stashUsed + remain,
                  stashByteStart := byteStart + consumed },
        [.dispatch size byteStart consumed])
    else (st1, [.dispatch size byteStart consumed])
  else
    let st1 :=
      if st.bufferSize < st.stashUsed + size then
        _expandBuffer st (st.stashUsed + size)
      else st
    let merged := st1.stashUsed + size
    let start := st1.stashByteStart
    let p := _dispatchChunks C { st1 with stashUsed := merged } merged start
    let st2 := p.1
    let consumed := p.2
    ({ st2 with stashUsed := merged - consumed, stashByteStart := start + consumed },
      [.dispatch merged start consumed])

/-- Stash-enabled branch of `_onLoaderChunkArrival` (source block 【2】):
anchor the logical start on the first chunk, append while the target is not
exceeded; on overflow dispatch the occupied region first (compacting any
remainder) and then append the chunk, or dispatch the chunk directly when the
stash is empty. -/
def arrivalStashEnabled (C : Consumer) (st : IOCState) (size byteStart : Nat) :
    IOCState × List IOAction :=
  let st := if st.stashUsed = 0 ∧ st.stashByteStart = 0 then
      { st with stashByteStart := byteStart }
    else st
  if st.stashUsed + size ≤ st.stashSize then
    ({ st with stashUsed := st.stashUsed + size }, [])
  else
    if 0 < st.stashUsed then
      let len := st.stashUsed
      let start := st.stashByteStart
      let p := _dispatchChunks C st len start
      let st1 := p.1
      let consumed := p.2
      let st2 :=
        if consumed < len then
          if 0 < consumed then
            { st1 with stashUsed := len - consumed, stashByteStart := start + consumed }
          else st1
        else { st1 with stashUsed := 0, stashByteStart := start + consumed }
      let st3 :=
        if st2.bufferSize < st2.stashUsed + size then
          _expandBuffer st2 (st2.stashUsed + size)
        else st2
      ({ st3 with stashUsed := st3.stashUsed + size },
        [.dispatch len start consumed])
    else
      let p := _dispatchChunks C st size byteStart
      let st1 := p.1
      let consumed := p.2
      if consumed < size then
        let remain := size - consumed
        let st2 := if st1.bufferSize < remain then _expandBuffer st1 remain else st1
        ({ st2 with stashUsed := st2.stashUsed + remain,
                    stashByteStart := byteStart + consumed },
          [.dispatch size byteStart consumed])
      else (st1, [.dispatch size byteStart consumed])

/-- `_onLoaderChunkArrival(chunk, byteStart, receivedLength)`: record
`lastByteStart`, drop the event when paused, acknowledge a successful
early-EOF reconnection, feed the sampler / retier the stash, then run the
buffering policy for the configured mode.  The sampler is an external
collaborator, so its `lastSecondKBps` reading is an input. -/
def _onLoaderChunkArrival (C : Consumer) (st : IOCState)
    (size byteStart kbps : Nat) : IOCState × List IOAction :=
  let st := { st with lastByteStart := (byteStart : Int) }
  if st.paused then (st, [])
  else
    let rec1 :=
      if st.isEarlyEofReconnecting then
        ({ st with isEarlyEofReconnecting := false }, [IOAction.notifyRecovered])
      else (st, ([] : List IOAction))
    let st := arrivalSpeedPart rec1.1 kbps
    let r :=
      if st.enableStash = false then arrivalStashDisabled C st size byteStart
      else arrivalStashEnabled C st size byteStart
    (r.1, rec1.2 ++ r.2)

/-- `_internalSeek(bytes, dropUnconsumed)`: abort a working loader, flush the
stash (dropping or keeping the remainder per the flag), reset the range and
the stash target size, recreate the loader and open it at `bytes`, and notify
`onSeeked`. -/
def _internalSeek (C : Consumer) (st : IOCState) (bytes : Int)
    (dropUnconsumed : Bool) : IOCState × List IOAction :=
  let abortActs : List IOAction := if st.loaderWorking then [.abortLoader] else []
  let f := _flushStashBuffer C st dropUnconsumed
  let st1 := f.1
  let st2 := { st1 with rangeFrom := bytes, rangeTo := -1,
                        stashSize := st1.stashInitialSize, loaderWorking := true }
  (st2, abortActs ++ f.2.1 ++ [.openLoader bytes, .notifySeeked])

/-- `open(optionalFrom)`: reset the range; a missing/zero argument is a full
request (JavaScript truthiness of `optionalFrom`). -/
def ioOpen (st : IOCState) (optionalFrom : Nat) : IOCState × List IOAction :=
  let fromByte : Int := if optionalFrom ≠ 0 then (optionalFrom : Int) else 0
  let st1 := { st with rangeFrom := fromByte, rangeTo := -1,
                       fullRequestFlag := st.fullRequestFlag || optionalFrom = 0,
                       loaderWorking := true }
  (st1, [.openLoader fromByte])

/-- `abort()`: always abort the loader; clear pause/resume state if paused. -/
def ioAbort (st : IOCState) : IOCState × List IOAction :=
  let st1 := { st with loaderWorking := false }
  if st1.paused then
    ({ st1 with paused := false, resumeFrom := 0 }, [.abortLoader])
  else (st1, [.abortLoader])

/-- `isWorking()`: the loader is working and the controller is not paused. -/
def ctlIsWorking (st : IOCState) : Bool :=
  st.loaderWorking && !st.paused

/-- `pause()`: only while working; abort the loader, compute the resume offset
(stash logical start when the stash holds data, else one past the last
confirmed received byte), zero the stash occupancy and mark paused. -/
def pause (st : IOCState) : IOCState × List IOAction :=
  if ctlIsWorking st then
    let st1 :=
      if st.stashUsed ≠ 0 then
        { st with resumeFrom := (st.stashByteStart : Int),
                  rangeTo := (st.stashByteStart : Int) - 1 }
      else
        { st with resumeFrom := st.rangeTo + 1 }
    ({ st1 with stashUsed := 0, stashByteStart := 0, paused := true,
                loaderWorking := false },
      [.abortLoader])
  else (st, [])

/-- `resume()`: clear pause state and reopen (via `_internalSeek`) at the
stored resume offset. -/
def resume (C : Consumer) (st : IOCState) : IOCState × List IOAction :=
  if st.paused then
    let bytes := st.resumeFrom
    let st1 := { st with paused := false, resumeFrom := 0 }
    _internalSeek C st1 bytes true
  else (st, [])

/-- `seek(bytes)`: clear pause state, discard the stash occupancy, reopen. -/
def seek (C : Consumer) (st : IOCState) (bytes : Int) : IOCState × List IOAction :=
  let st1 := { st with paused := false, stashUsed := 0, stashByteStart := 0 }
  _internalSeek C st1 bytes true

/-- `_onContentLengthKnown(contentLength)`. -/
def _onContentLengthKnown (st : IOCState) (contentLength : Nat) : IOCState :=
  if contentLength ≠ 0 ∧ st.fullRequestFlag then
    { st with totalLength := some contentLength, fullRequestFlag := false }
  else st

/-- `_onLoaderComplete(from, to)`: force-flush dropping the remainder; notify
completion when some arrival was recorded (`lastByteStart >= 0`), else a
connecting-timeout ("no signal") error. -/
def _onLoaderComplete (C : Consumer) (st : IOCState) : IOCState × List IOAction :=
  let f := _flushStashBuffer C st true
  let st1 := f.1
  if 0 ≤ st1.lastByteStart then (st1, f.2.1 ++ [.notifyComplete])
  else (st1, f.2.1 ++ [.notifyError .connectingTimeout])

/-- `_onLoaderError(type, data)`: flush keeping the remainder; escalate to
unrecoverable-early-eof when a reconnection was already in progress; for a
transient early EOF on a bounded source with known total length and remaining
bytes, reconnect via `_internalSeek` (stash preserved) and return silently;
otherwise surface the (possibly escalated) error. -/
def _onLoaderError (C : Consumer) (st : IOCState) (ty : LoaderErrKind) :
    IOCState × List IOAction :=
  let f := _flushStashBuffer C st false
  let st1 := f.1
  if st1.isEarlyEofReconnecting then
    -- escalated: `type` becomes UNRECOVERABLE_EARLY_EOF, which the switch
    -- passes straight through to the surfacing step
    ({ st1 with isEarlyEofReconnecting := false },
      f.2.1 ++ [.notifyError .unrecoverableEarlyEof])
  else
    match ty with
    | .earlyEof =>
      if st1.isLive = false then
        match st1.totalLength with
        | some total =>
          let nextFrom := st1.rangeTo + 1
          if nextFrom < (total : Int) then
            let st3 := { st1 with isEarlyEofReconnecting := true }
            let s := _internalSeek C st3 nextFrom false
            (s.1, f.2.1 ++ s.2)
          else (st1, f.2.1)
        | none => (st1, f.2.1 ++ [.notifyError .unrecoverableEarlyEof])
      else (st1, f.2.1 ++ [.notifyError .unrecoverableEarlyEof])
    | k => (st1, f.2.1 ++ [.notifyError k])

/-- One externally triggered controller operation within a session. -/
inductive IOOp where
  | openFrom (n : Nat)
  | arrival (size byteStart kbps : Nat)
  | contentLength (n : Nat)
  | seekTo (bytes : Int)
  | pauseOp
  | resumeOp
  | abortOp
  | completeEvt
  | errorEvt (ty : LoaderErrKind)
deriving DecidableEq

/-- Apply one operation to the controller. -/
def applyOp (C : Consumer) (st : IOCState) : IOOp → IOCState × List IOAction
  | .openFrom n => ioOpen st n
  | .arrival size byteStart kbps => _onLoaderChunkArrival C st size byteStart kbps
  | .contentLength n => (_onContentLengthKnown st n, [])
  | .seekTo bytes => seek C st bytes
  | .pauseOp => pause st
  | .resumeOp => resume C st
  | .abortOp => ioAbort st
  | .completeEvt => _onLoaderComplete C st
  | .errorEvt ty => _onLoaderError C st ty

/-- Run a sequence of operations, concatenating the action traces. -/
def runOps (C : Consumer) (st : IOCState) : List IOOp → IOCState × List IOAction
  | [] => (st, [])
  | op :: rest =>
    let r := applyOp C st op
    let r2 := runOps C r.1 rest
    (r2.1, r.2 ++ r2.2)

/-! ## H.264 demuxer (`src/demux/h264-demuxer.js`) -/

/-- Faults modelled from JavaScript exceptions: `RangeError` from
out-of-bounds `DataView` reads / typed-array constructions, `TypeError` from
using `undefined` array elements, and the fail-fast `IllegalStateException`
when mandatory callbacks are unset. -/
inductive DemuxFault where
  | rangeError
  | typeError
  | handlersUnset
deriving DecidableEq

/-- Exact value of a JavaScript float expression `a / b`, kept as an
unreduced numerator/denominator pair so that whole states stay
kernel-computable. -/
structure RatPair where
  num : Nat
  den : Nat
deriving DecidableEq

/-- Frame-rate record (`fps` is an exact fraction to stay executable). -/
structure FrameRate where
  fixed : Bool
  fps : RatPair
  fps_num : Nat
  fps_den : Nat
deriving DecidableEq

/-- Output of the external SPS bitstream decoder (`SPSParser.parseSPS`),
an out-of-scope collaborator; the demuxer only reads these fields. -/
structure SPSConfig where
  codec_width : Nat
  codec_height : Nat
  present_width : Nat
  present_height : Nat
  profile_string : String
  level_string : String
  bit_depth : Nat
  chroma_format : Nat
  chroma_format_string : String
  sar_width : Nat
  sar_height : Nat
  ref_frames : Nat
  frame_rate : FrameRate
deriving DecidableEq

/-- Video track metadata object built by `_parseAVCSPSVideoData`. -/
structure VideoMeta where
  mtype : String
  id : Nat
  timescale : Nat
  duration : Nat
  codecWidth : Nat
  codecHeight : Nat
  presentWidth : Nat
  presentHeight : Nat
  profile : String
  level : String
  bitDepth : Nat
  chromaFormat : Nat
  sarWidth : Nat
  sarHeight : Nat
  frameRate : FrameRate
  refSampleDuration : RatPair
  codec : String
deriving DecidableEq

/-- The `MediaInfo` container (`core/media-info.js` is outside `src/`; it is
a plain record of public fields, modelled with the fields this demuxer
assigns plus defaults for the rest). -/
structure MediaInfoS where
  hasAudio : Bool
  hasVideo : Bool
  duration : Nat
  width : Nat
  height : Nat
  fps : RatPair
  profile : String
  level : String
  refFrames : Nat
  chromaFormat : String
  sarNum : Nat
  sarDen : Nat
  videoCodec : String
  mimeType : String
deriving DecidableEq

/-- One NAL unit collected during the slice scan: its type tag and its raw
bytes including the length header. -/
structure AVCUnit where
  utype : Nat
  data : List Nat
deriving DecidableEq

/-- A timed sample appended to the video track. -/
structure AVCSample where
  units : List AVCUnit
  length : Nat
  isKeyframe : Bool
  dts : Int
  cts : Int
  pts : Int
  fileposition : Option Nat
deriving DecidableEq

/-- A track: identifier, sequence number, held samples, cumulative length. -/
structure TrackS where
  ttype : String
  id : Nat
  sequenceNumber : Nat
  samples : List AVCSample
  length : Nat
deriving DecidableEq

/-- Notifications the demuxer delivers upward. -/
inductive DEvent where
  | mediaInfo (mi : MediaInfoS)
  | trackMetadata (ttype : String) (meta : VideoMeta)
  | dataAvailable
deriving DecidableEq

def DEvent.isMediaInfoEv : DEvent → Bool
  | .mediaInfo _ => true
  | _ => false

def DEvent.isTrackMetaEv : DEvent → Bool
  | .trackMetadata _ _ => true
  | _ => false

def DEvent.isDataAvailableEv : DEvent → Bool
  | .dataAvailable => true
  | _ => false

/-- Mutable fields of `H264Demuxer` that the embedded operations touch.
`handlersSet` stands for all four mandatory callbacks being non-null. -/
structure DemuxState where
  hasAudio : Bool
  hasVideo : Bool
  audioInitialMetadataDispatched : Bool
  videoInitialMetadataDispatched : Bool
  dispatchFlag : Bool
  firstParse : Bool
  videoMetadata : Option VideoMeta
  mediaInfo : MediaInfoS
  videoTrack : TrackS
  audioTrack : TrackS
  naluLengthSize : Nat
  timestampBase : Int
  timescale : Nat
  duration : Nat
  referenceFrameRate : FrameRate
  littleEndian : Bool
  handlersSet : Bool
deriving DecidableEq

/-- Constructor state of `H264Demuxer` fed with `H264Demuxer.probe`'s result
(`hasAudioTrack: false, hasVideoTrack: true`); `littleEndian` is the probed
platform endianness and `handlersSet` records that the mandatory callbacks
were registered before parsing. -/
def initH264DemuxState (littleEndian : Bool) : DemuxState :=
  { hasAudio := false
    hasVideo := true
    audioInitialMetadataDispatched := false
    videoInitialMetadataDispatched := false
    dispatchFlag := false
    firstParse := true
    videoMetadata := none
    mediaInfo :=
      { hasAudio := false, hasVideo := true, duration := 0, width := 0,
        height := 0, fps := ⟨0, 1⟩, profile := "", level := "", refFrames := 0,
        chromaFormat := "", sarNum := 0, sarDen := 0, videoCodec := "",
        mimeType := "" }
    videoTrack := { ttype := "video", id := 1, sequenceNumber := 0, samples := [], length := 0 }
    audioTrack := { ttype := "audio", id := 2, sequenceNumber := 0, samples := [], length := 0 }
    naluLengthSize := 4
    timestampBase := 0
    timescale := 1000
    duration := 0
    referenceFrameRate := { fixed := true, fps := ⟨23976, 1000⟩, fps_num := 23976, fps_den := 1000 }
    littleEndian := littleEndian
    handlersSet := true }

/-- Combine four byte values into a 32-bit read with the given endianness
(`DataView.getUint32(pos, little)`). -/
def combine32 (little : Bool) (b0 b1 b2 b3 : Nat) : Nat :=
  if little then b0 + b1 * 256 + b2 * 65536 + b3 * 16777216
  else b3 + b2 * 256 + b1 * 65536 + b0 * 16777216

/-- `DataView(bytes, base, viewLen).getUint8(pos)`, `RangeError` when out of
bounds; stored values read back `% 256`. -/
def dvGetUint8 (bytes : List Nat) (base viewLen pos : Nat) : Except DemuxFault Nat :=
  if pos + 1 ≤ viewLen then .ok (bytes.getD (base + pos) 0 % 256)
  else .error .rangeError

/-- `DataView(bytes, base, viewLen).getUint32(pos, little)`. -/
def dvGetUint32 (little : Bool) (bytes : List Nat) (base viewLen pos : Nat) :
    Except DemuxFault Nat :=
  if pos + 4 ≤ viewLen then
    .ok (combine32 little (bytes.getD (base + pos) 0 % 256)
      (bytes.getD (base + pos + 1) 0 % 256)
      (bytes.getD (base + pos + 2) 0 % 256)
      (bytes.getD (base + pos + 3) 0 % 256))
  else .error .rangeError

/-- Accumulator of the NALU scan loop in `_parseAVCVideoData`. -/
structure ScanAcc where
  units : List AVCUnit
  length : Nat
  keyframe : Bool
deriving DecidableEq

/-- The `while (offset < dataSize)` NALU scan of `_parseAVCVideoData`.
`ok (some acc)` is normal loop exit or the logged `break` on a short tail
(the source checks a fixed `offset + 4 >= dataSize` irrespective of the
prefix width); `ok none` is the logged early `return` when a declared unit
length exceeds `dataSize - lengthSize`; `error` is the `RangeError` thrown
by `new Uint8Array(arrayBuffer, dataOffset + offset, lengthSize + naluSize)`
when that window leaves the underlying buffer.  Fuel `dataSize + 1` always
suffices because `offset` grows by at least `lengthSize ≥ 1` per round. -/
def scanNalus (little : Bool) (lengthSize : Nat) (bytes : List Nat)
    (dataOffset dataSize : Nat) :
    Nat → Nat → ScanAcc → Except DemuxFault (Option ScanAcc)
  | 0, _, acc => .ok (some acc)
  | fuel + 1, offset, acc =>
    if offset < dataSize then
      if dataSize ≤ offset + 4 then .ok (some acc)
      else
        match dvGetUint32 little bytes dataOffset dataSize offset with
        | .error f => .error f
        | .ok n0 =>
          let naluSize := if lengthSize = 3 then n0 / 256 else n0
          if dataSize - lengthSize < naluSize then .ok none
          else
            match dvGetUint8 bytes dataOffset dataSize (offset + lengthSize) with
            | .error f => .error f
            | .ok b =>
              let unitType := b &&& 31
              let kf := if unitType = 5 then true else acc.keyframe
              if dataOffset + offset + (lengthSize + naluSize) ≤ bytes.length then
                let data := ((bytes.drop (dataOffset + offset)).take
                    (lengthSize + naluSize)).map (· % 256)
                scanNalus little lengthSize bytes dataOffset dataSize fuel
                  (offset + (lengthSize + naluSize))
                  { units := acc.units ++ [{ utype := unitType, data := data }],
                    length := acc.length + (lengthSize + naluSize),
                    keyframe := kf }
              else .error .rangeError
    else .ok (some acc)

/-- `_parseAVCVideoData(arrayBuffer, dataOffset, dataSize, tagTimestamp,
tagPosition, frameType, cts)`: run the NALU scan over the view; on a logged
abort the track is untouched; otherwise a sample is appended when at least
one unit was collected (recording the file position for keyframes). -/
def _parseAVCVideoData (st : DemuxState) (bytes : List Nat)
    (dataOffset dataSize tagTimestamp tagPosition frameType : Nat) (cts : Int) :
    Except DemuxFault DemuxState :=
  if dataOffset + dataSize ≤ bytes.length then
    let dts : Int := st.timestampBase + (tagTimestamp : Int)
    match scanNalus (!st.littleEndian) st.naluLengthSize bytes dataOffset dataSize
        (dataSize + 1) 0 { units := [], length := 0, keyframe := frameType = 1 } with
    | .error f => .error f
    | .ok none => .ok st
    | .ok (some acc) =>
      if acc.units ≠ [] then
        let track := st.videoTrack
        let avcSample : AVCSample :=
          { units := acc.units, length := acc.length, isKeyframe := acc.keyframe,
            dts := dts, cts := cts, pts := dts + cts,
            fileposition := if acc.keyframe then some tagPosition else none }
        .ok { st with videoTrack :=
          { track with samples := track.samples ++ [avcSample],
                       length := track.length + acc.length } }
      else .ok st
  else .error .rangeError

/-- JavaScript `Number.prototype.toString(16)` for a byte value, padded to
two digits as the source does. -/
def byteToHex (n : Nat) : String :=
  let digits := "0123456789abcdef".toList
  String.mk [digits.getD (n / 16 % 16) '0', digits.getD (n % 16) '0']

/-- `_parseAVCSPSVideoData(arrayBuffer, offset)`: create the video metadata
record on first occurrence, decode geometry via the external SPS parser,
apply the fallback frame rate when the decoded rate is non-fixed or
degenerate, derive the codec tag from SPS bytes 1..3 (a `TypeError` in the
source when fewer than 4 SPS bytes exist), fill `MediaInfo`, and emit the
media-info and video-track-metadata notifications. -/
def _parseAVCSPSVideoData (spsParse : List Nat → SPSConfig) (st : DemuxState)
    (bytes : List Nat) (offset : Nat) :
    Except DemuxFault (DemuxState × List DEvent) :=
  let sps := ((bytes.drop offset).take (bytes.length - offset)).map (· % 256)
  let track := st.videoTrack
  let created :=
    match st.videoMetadata with
    | some m => (st, m)
    | none =>
      ({ st with hasVideo := true,
                 mediaInfo := { st.mediaInfo with hasVideo := true } },
        ({ mtype := "video", id := track.id, timescale := st.timescale,
           duration := st.duration, codecWidth := 0, codecHeight := 0,
           presentWidth := 0, presentHeight := 0, profile := "", level := "",
           bitDepth := 0, chromaFormat := 0, sarWidth := 0, sarHeight := 0,
           frameRate := { fixed := true, fps := ⟨0, 1⟩, fps_num := 0, fps_den := 0 },
           refSampleDuration := ⟨0, 1⟩, codec := "" } : VideoMeta))
  let st0 := created.1
  let config := spsParse sps
  let meta1 : VideoMeta :=
    { created.2 with
      codecWidth := config.codec_width, codecHeight := config.codec_height,
      presentWidth := config.present_width, presentHeight := config.present_height,
      profile := config.profile_string, level := config.level_string,
      bitDepth := config.bit_depth, chromaFormat := config.chroma_format,
      sarWidth := config.sar_width, sarHeight := config.sar_height,
      frameRate := config.frame_rate }
  let meta2 :=
    if config.frame_rate.fixed = false ∨ config.frame_rate.fps_num = 0 ∨
        config.frame_rate.fps_den = 0 then
      { meta1 with frameRate := st0.referenceFrameRate }
    else meta1
  let meta3 :=
    { meta2 with refSampleDuration :=
        ⟨meta2.timescale * meta2.frameRate.fps_den, meta2.frameRate.fps_num⟩ }
  if 4 ≤ sps.length then
    let codecString := "avc1." ++ byteToHex (sps.getD 1 0) ++
      byteToHex (sps.getD 2 0) ++ byteToHex (sps.getD 3 0)
    let meta4 := { meta3 with codec := codecString }
    let mi :=
      { st0.mediaInfo with
        width := meta4.codecWidth, height := meta4.codecHeight,
        fps := meta4.frameRate.fps, profile := meta4.profile,
        level := meta4.level, refFrames := config.ref_frames,
        chromaFormat := config.chroma_format_string,
        sarNum := meta4.sarWidth, sarDen := meta4.sarHeight,
        videoCodec := codecString,
        mimeType := "video/x-flv; codecs=\"" ++ codecString ++ "\"" }
    .ok ({ st0 with videoMetadata := some meta4, mediaInfo := mi },
      [DEvent.mediaInfo mi, DEvent.trackMetadata "video" meta4])
  else .error .typeError

/-- Modelled from the spec: `_parseVideoData` ends with
`this._parseAVCVideoPacket(arrayBuffer, dataOffset + 1, dataSize - 1,
tagTimestamp, tagPosition, frameType)`, but no `_parseAVCVideoPacket` method
exists in the file and `dataOffset`, `dataSize`, `tagTimestamp`,
`tagPosition` and `frameType` are not defined in that scope — the spec (§9)
says to treat §4.3 as the intended behavior.  Per §4.3 the frame payload
after the 4-byte timestamp and the NAL-header byte is walked as
length-prefixed units (the existing `_parseAVCVideoData`), with the frame's
timestamp, the originating arrival offset as the tag position, the keyframe
flag forced for type 5, and no separate composition offset. -/
def _parseAVCVideoPacket (st : DemuxState) (bytes : List Nat)
    (timestamp byteStart naluType : Nat) : Except DemuxFault DemuxState :=
  _parseAVCVideoData st bytes 5 (bytes.length - 5) timestamp byteStart
    (if naluType = 5 then 1 else 0) 0

/-- `_parseVideoData(arrayBuffer)`: read the 4-byte timestamp and the NAL
header byte (big-endian via `getUint32(offset, !le)`), dispatch on the low 5
bits (type 7 decodes the SPS and emits metadata; 8, 5 and others fall
through), then run the (spec-modelled) per-frame packet walk. -/
def _parseVideoData (spsParse : List Nat → SPSConfig) (st : DemuxState)
    (chunk : List Nat) (byteStart : Nat) :
    Except DemuxFault (DemuxState × List DEvent) :=
  match dvGetUint32 (!st.littleEndian) chunk 0 chunk.length 0 with
  | .error f => .error f
  | .ok timestamp =>
    match dvGetUint8 chunk 0 chunk.length 4 with
    | .error f => .error f
    | .ok naluHeader =>
      let naluType := naluHeader &&& 31
      match
        (if naluType = 7 then _parseAVCSPSVideoData spsParse st chunk 5
         else .ok (st, [])) with
      | .error f => .error f
      | .ok r =>
        match _parseAVCVideoPacket r.1 chunk timestamp byteStart naluType with
        | .error f => .error f
        | .ok st2 => .ok (st2, r.2)

/-- `_isInitialMetadataDispatched()`. -/
def _isInitialMetadataDispatched (st : DemuxState) : Bool :=
  if st.hasAudio && st.hasVideo then
    st.audioInitialMetadataDispatched && st.videoInitialMetadataDispatched
  else if st.hasAudio && !st.hasVideo then st.audioInitialMetadataDispatched
  else if !st.hasAudio && st.hasVideo then st.videoInitialMetadataDispatched
  else false

/-- `parseChunks(chunk, byteStart)`: fail fast when mandatory callbacks are
unset, clear `_firstParse`, parse the frame, then forward accumulated samples
when every enabled track has dispatched its initial metadata and the dispatch
flag is set; always report the whole chunk as consumed. -/
def parseChunks (spsParse : List Nat → SPSConfig) (st : DemuxState)
    (chunk : List Nat) (byteStart : Nat) :
    Except DemuxFault (DemuxState × List DEvent × Nat) :=
  if st.handlersSet = false then .error .handlersUnset
  else
    let st := if st.firstParse then { st with firstParse := false } else st
    match _parseVideoData spsParse st chunk byteStart with
    | .error f => .error f
    | .ok r =>
      let evs2 :=
        if _isInitialMetadataDispatched r.1 then
          if r.1.dispatchFlag &&
              (r.1.audioTrack.length != 0 || r.1.videoTrack.length != 0) then
            [DEvent.dataAvailable]
          else []
        else []
      .ok (r.1, r.2 ++ evs2, chunk.length)

/-- Feed a session's chunk sequence (each with its arrival offset) through
`parseChunks`, concatenating the emitted notifications. -/
def runChunks (spsParse : List Nat → SPSConfig) (st : DemuxState) :
    List (List Nat × Nat) → Except DemuxFault (DemuxState × List DEvent)
  | [] => .ok (st, [])
  | (c, b) :: rest =>
    match parseChunks spsParse st c b with
    | .error f => .error f
    | .ok r =>
      match runChunks spsParse r.1 rest with
      | .error f => .error f
      | .ok r2 => .ok (r2.1, r.2.1 ++ r2.2)

/-- NAL type tag of a frame chunk: low five bits of the byte after the
4-byte timestamp. -/
def naluTypeOf (chunk : List Nat) : Nat :=
  chunk.getD 4 0 % 256 &&& 31

/-- Whether a demuxer session run succeeded. -/
def chunksOk : Except DemuxFault (DemuxState × List DEvent) → Bool
  | .ok _ => true
  | .error _ => false

/-- Notifications of a successful demuxer session run. -/
def chunksEventsOf : Except DemuxFault (DemuxState × List DEvent) → List DEvent
  | .ok r => r.2
  | .error _ => []

/-! ## Concrete fixtures for counterexamples and witnesses -/

/-- A consumer that always consumes everything it is handed. -/
def fullConsumer : Consumer := fun size _ => size

/-- Claim C1's scenario start state: stash enabled, bounded source, 64 KiB
stash target, freshly opened loader. -/
def c1Start : IOCState :=
  { initIOCState (1024 * 384) true false (some 1000000) with
      stashSize := 65536, loaderWorking := true }

/-- Claim C1's scenario events: three 40 KiB chunks in sequence from offset
0, with an idle throughput sampler. -/
def c1Ops : List IOOp :=
  [.arrival 40960 0 0, .arrival 40960 40960 0, .arrival 40960 81920 0]

def c1Run : IOCState × List IOAction := runOps fullConsumer c1Start c1Ops

/-- A freshly opened controller for the completion scenario of claim C7. -/
def c7Start : IOCState :=
  { initIOCState (1024 * 384) true false none with loaderWorking := true }

/-- A session delivering a single zero-length chunk and then completing. -/
def c7Ops : List IOOp := [.arrival 0 0 0, .completeEvt]

def c7Run : IOCState × List IOAction := runOps fullConsumer c7Start c7Ops

/-- Bytes delivered by an operation (an arrival's chunk size). -/
def opBytes : IOOp → Nat
  | .arrival s _ _ => s
  | _ => 0

/-- Total bytes ever received across a session's operations. -/
def receivedBytes (ops : List IOOp) : Nat := (ops.map opBytes).sum

/-- A mid-stream controller state for claim C3's witness: bounded source of
100000 bytes, bytes 0..49999 confirmed, empty stash, not reconnecting. -/
def c3WitnessState : IOCState :=
  { initIOCState (1024 * 384) true false (some 100000) with
      rangeTo := 49999, loaderWorking := true }

/-- A paused-scenario state for claims C5/C10: working loader, 5 KiB
unconsumed in the stash at logical start 12288, bytes 0..17407 confirmed. -/
def c5WitnessState : IOCState :=
  { initIOCState (1024 * 384) true false (some 1000000) with
      rangeTo := 17407, stashUsed := 5120, stashByteStart := 12288,
      loaderWorking := true }

/-- The size facts every reachable controller state satisfies (a valid
configuration has a positive initial stash size, and the stash target stays
positive). -/
def SizeInv (st : IOCState) : Prop :=
  1 ≤ st.stashInitialSize ∧ 1 ≤ st.stashSize

/-- A concrete SPS decode result standing in for the external bitstream
collaborator in witnesses. -/
def constSpsParse : List Nat → SPSConfig := fun _ =>
  { codec_width := 640, codec_height := 480, present_width := 640,
    present_height := 480, profile_string := "Baseline", level_string := "3.0",
    bit_depth := 8, chroma_format := 1, chroma_format_string := "4:2:0",
    sar_width := 1, sar_height := 1, ref_frames := 1,
    frame_rate := { fixed := true, fps := ⟨30, 1⟩, fps_num := 30000, fps_den := 1000 } }

/-- Claim C6's counterexample buffer: a 25-byte buffer viewed at offset 5
with length 20.  The first unit declares 2 payload bytes (well-formed); the
second unit, at scan offset 6, declares 12 payload bytes — more than the 10
bytes remaining after its 4-byte prefix, but not more than
`dataSize - lengthSize = 16`, so the source's oversize check passes and the
unit's typed-array window leaves the buffer. -/
def c6Bytes : List Nat :=
  [0, 0, 0, 0, 0,
   0, 0, 0, 2, 1, 9,
   0, 0, 0, 12, 1, 0, 0, 0, 0, 0, 0, 0, 0, 0]

/-- Claim C4's witness session: an SPS frame (type 7) followed by an ordinary
slice frame (type 1), each with a 4-byte no-op unit payload. -/
def c4Chunks : List (List Nat × Nat) :=
  [([0, 0, 0, 0, 7, 1, 2, 3, 4], 0), ([0, 0, 0, 0, 1, 0, 0, 0, 0], 9)]

/-- Claim C9's witness chunk: a well-formed type-1 frame of 9 bytes. -/
def c9Chunk : List Nat := [0, 0, 0, 0, 1, 0, 0, 0, 0]

instance {ε α : Type} [DecidableEq ε] [DecidableEq α] : DecidableEq (Except ε α) :=
  fun a b =>
    match a, b with
    | .error e, .error f =>
      if h : e = f then isTrue (by rw [h]) else isFalse (by simp [h])
    | .error _, .ok _ => isFalse (by simp)
    | .ok _, .error _ => isFalse (by simp)
    | .ok x, .ok y =>
      if h : x = y then isTrue (by rw [h]) else isFalse (by simp [h])

instance (st : IOCState) : Decidable (SizeInv st) := by
  unfold SizeInv
  infer_instance

/-! ## Helper lemmas about the controller -/

/-- The doubling loop's exit value, shifted by the 1 MiB headroom, reaches
`expected` whenever it starts positive and has enough fuel. -/
theorem _expandLoop_ge (expected : Nat) :
    ∀ fuel b, 1 ≤ b → expected ≤ b + fuel →
      expected ≤ _expandLoop expected fuel b + 1024 * 1024 * 1 := by
  intro fuel
  induction fuel with
  | zero =>
    intro b _ hb
    simp only [_expandLoop]
    omega
  | succ n ih =>
    intro b h1 hb
    simp only [_expandLoop]
    split
    · exact ih (b * 2) (by omega) (by omega)
    · omega

/-- `_expandBuffer` never touches the stash bookkeeping. -/
theorem _expandBuffer_fields (st : IOCState) (e : Nat) :
    (_expandBuffer st e).stashSize = st.stashSize ∧
    (_expandBuffer st e).stashInitialSize = st.stashInitialSize := by
  unfold _expandBuffer
  dsimp only
  split <;> simp

/-- Whenever `_expandBuffer` is invoked under its source-side guard
(`expectedBytes` exceeds the current capacity) and the stash target is
positive, the backing capacity does not shrink. -/
theorem _expandBuffer_le (st : IOCState) (e : Nat) (h1 : 1 ≤ st.stashSize)
    (h2 : st.bufferSize < e) :
    st.bufferSize ≤ (_expandBuffer st e).bufferSize := by
  unfold _expandBuffer
  dsimp only
  split
  · exact Nat.le_refl _
  · simp only
    have := _expandLoop_ge e e st.stashSize h1 (by omega)
    omega

/-- The guarded expand pattern used at every call site keeps the capacity
monotone and the stash fields intact. -/
theorem expandGuard (st : IOCState) (e : Nat) (h1 : 1 ≤ st.stashSize) :
    st.bufferSize ≤ (if st.bufferSize < e then _expandBuffer st e else st).bufferSize ∧
    (if st.bufferSize < e then _expandBuffer st e else st).stashSize = st.stashSize ∧
    (if st.bufferSize < e then _expandBuffer st e else st).stashInitialSize =
      st.stashInitialSize := by
  split
  · exact ⟨_expandBuffer_le st e h1 (by assumption),
      (_expandBuffer_fields st e).1, (_expandBuffer_fields st e).2⟩
  · exact ⟨Nat.le_refl _, rfl, rfl⟩

/-- Every tier in `speedNormalizeList` is at least the smallest tier 64. -/
theorem speedNormalizeList_ge : ∀ i : Nat, i ≤ 10 →
    64 ≤ speedNormalizeList.getD i 0 := by decide

/-- The binary-search loop only ever returns list members, hence values of at
least 64. -/
theorem _normalizeSpeedLoop_ge (input : Nat) :
    ∀ fuel (lb ub : Int) v, 0 ≤ lb → ub ≤ 10 →
      _normalizeSpeedLoop input fuel lb ub = some v → 64 ≤ v := by
  intro fuel
  induction fuel with
  | zero =>
    intro lb ub v _ _ h
    simp [_normalizeSpeedLoop] at h
  | succ n ih =>
    intro lb ub v hlb hub h
    simp only [_normalizeSpeedLoop] at h
    split at h
    · rename_i hle
      split at h
      · have hv : v = speedNormalizeList.getD (lb + (ub - lb) / 2).toNat 0 := by
          exact (Option.some.injEq _ _ ▸ h).symm
        have hmid : (lb + (ub - lb) / 2).toNat ≤ 10 := by omega
        rw [hv]
        exact speedNormalizeList_ge _ hmid
      · split at h
        · exact ih _ _ _ (by omega) (by omega) h
        · exact ih _ _ _ (by omega) (by omega) h
    · simp at h

/-- `_normalizeSpeed` always reports a tier of at least 64. -/
theorem _normalizeSpeed_ge (input v : Nat) (h : _normalizeSpeed input = some v) :
    64 ≤ v := by
  unfold _normalizeSpeed at h
  split at h
  · have : v = speedNormalizeList.getD 0 0 := (Option.some.injEq _ _ ▸ h).symm
    rw [this]
    exact speedNormalizeList_ge 0 (by omega)
  · exact _normalizeSpeedLoop_ge input _ 0 _ v (by omega) (by norm_num [speedNormalizeList]) h

/-- `_adjustStashSize` keeps the capacity monotone (its expand call is
guarded), keeps the target positive for any real tier, and leaves the
configured initial size alone. -/
theorem _adjustStashSize_mono (st : IOCState) (n : Nat) (h1 : 1 ≤ st.stashSize)
    (hn : 64 ≤ n) :
    st.bufferSize ≤ (_adjustStashSize st n).bufferSize ∧
    1 ≤ (_adjustStashSize st n).stashSize ∧
    (_adjustStashSize st n).stashInitialSize = st.stashInitialSize := by
  unfold _adjustStashSize
  dsimp only
  set kb0 := if st.isLive then n else if n < 512 then n
    else if n ≤ 1024 then 3 * n / 2 else n * 2 with hkb0
  set kb := if 8192 < kb0 then 8192 else kb0 with hkb
  have hkb0ge : 64 ≤ kb0 := by
    rw [hkb0]
    split_ifs <;> omega
  have hkbge : 1 ≤ kb := by
    rw [hkb]
    split_ifs <;> omega
  have hguard := expandGuard st (kb * 1024 + 1024 * 1024 * 1) h1
  refine ⟨hguard.1, by omega, hguard.2.2⟩

/-- The speed-tier part of a data arrival: capacity monotone, target stays
positive, initial size untouched. -/
theorem arrivalSpeedPart_mono (st : IOCState) (kbps : Nat) (h1 : 1 ≤ st.stashSize) :
    st.bufferSize ≤ (arrivalSpeedPart st kbps).bufferSize ∧
    1 ≤ (arrivalSpeedPart st kbps).stashSize ∧
    (arrivalSpeedPart st kbps).stashInitialSize = st.stashInitialSize := by
  unfold arrivalSpeedPart
  split
  · split
    · rename_i v hnorm
      have hv := _normalizeSpeed_ge kbps v hnorm
      split
      · exact _adjustStashSize_mono { st with speedNormalized := v } v h1 hv
      · exact ⟨Nat.le_refl _, h1, rfl⟩
    · exact ⟨Nat.le_refl _, h1, rfl⟩
  · exact ⟨Nat.le_refl _, h1, rfl⟩

/-- The stash-disabled arrival branch: capacity monotone, target and initial
size untouched. -/
theorem arrivalStashDisabled_mono (C : Consumer) (st : IOCState)
    (size byteStart : Nat) (h1 : 1 ≤ st.stashSize) :
    st.bufferSize ≤ (arrivalStashDisabled C st size byteStart).1.bufferSize ∧
    (arrivalStashDisabled C st size byteStart).1.stashSize = st.stashSize ∧
    (arrivalStashDisabled C st size byteStart).1.stashInitialSize =
      st.stashInitialSize := by
  unfold arrivalStashDisabled
  dsimp only [_dispatchChunks]
  split
  · split
    · have := expandGuard { st with rangeTo := (byteStart : Int) + (size : Int) - 1 }
        (size - C size byteStart) h1
      simp only at this ⊢
      exact ⟨this.1, this.2.1, this.2.2⟩
    · exact ⟨Nat.le_refl _, rfl, rfl⟩
  · have hg1 := expandGuard st (st.stashUsed + size) h1
    set st1 := if st.bufferSize < st.stashUsed + size then
        _expandBuffer st (st.stashUsed + size) else st with hst1
    simp only
    exact ⟨hg1.1, hg1.2.1, hg1.2.2⟩

/-- The stash-enabled arrival branch: capacity monotone, target and initial
size untouched. -/
theorem arrivalStashEnabled_mono (C : Consumer) (st : IOCState)
    (size byteStart : Nat) (h1 : 1 ≤ st.stashSize) :
    st.bufferSize ≤ (arrivalStashEnabled C st size byteStart).1.bufferSize ∧
    (arrivalStashEnabled C st size byteStart).1.stashSize = st.stashSize ∧
    (arrivalStashEnabled C st size byteStart).1.stashInitialSize =
      st.stashInitialSize := by
  unfold arrivalStashEnabled
  set stA := if st.stashUsed = 0 ∧ st.stashByteStart = 0 then
      { st with stashByteStart := byteStart } else st with hstA
  have hA : stA.bufferSize = st.bufferSize ∧ stA.stashSize = st.stashSize ∧
      stA.stashInitialSize = st.stashInitialSize ∧ 1 ≤ stA.stashSize := by
    rw [hstA]
    split <;> exact ⟨rfl, rfl, rfl, h1⟩
  dsimp only [_dispatchChunks]
  split
  · exact ⟨hA.1.ge.trans (Nat.le_refl _), hA.2.1, hA.2.2.1⟩
  · split
    · set st2 := if C stA.stashUsed stA.stashByteStart < stA.stashUsed then
        if 0 < C stA.stashUsed stA.stashByteStart then
          { stA with
            rangeTo := (stA.stashByteStart : Int) + (stA.stashUsed : Int) - 1,
            stashUsed := stA.stashUsed - C stA.stashUsed stA.stashByteStart,
            stashByteStart := stA.stashByteStart + C stA.stashUsed stA.stashByteStart }
        else { stA with rangeTo := (stA.stashByteStart : Int) + (stA.stashUsed : Int) - 1 }
      else
        { stA with
          rangeTo := (stA.stashByteStart : Int) + (stA.stashUsed : Int) - 1,
          stashUsed := 0,
          stashByteStart := stA.stashByteStart + C stA.stashUsed stA.stashByteStart } with hst2
      have h2 : st2.bufferSize = st.bufferSize ∧ st2.stashSize = st.stashSize ∧
          st2.stashInitialSize = st.stashInitialSize ∧ 1 ≤ st2.stashSize := by
        rw [hst2]
        split_ifs <;>
          exact ⟨hA.1, hA.2.1, hA.2.2.1, hA.2.2.2⟩
      have hg := expandGuard st2 (st2.stashUsed + size) h2.2.2.2
      simp only
      refine ⟨?_, ?_, ?_⟩
      · rw [← h2.1]
        exact hg.1
      · rw [← h2.2.1]
        exact hg.2.1
      · rw [← h2.2.2.1]
        exact hg.2.2
    · split
      · have hg := expandGuard
          { stA with rangeTo := (byteStart : Int) + (size : Int) - 1 }
          (size - C size byteStart) (by simpa using hA.2.2.2)
        simp only at hg ⊢
        refine ⟨?_, ?_, ?_⟩
        · rw [← hA.1]
          exact hg.1
        · rw [← hA.2.1]
          exact hg.2.1
        · rw [← hA.2.2.1]
          exact hg.2.2
      · exact ⟨hA.1.ge.trans (Nat.le_refl _), hA.2.1, hA.2.2.1⟩

/-- A whole data arrival keeps the capacity monotone and the size invariant. -/
theorem _onLoaderChunkArrival_mono (C : Consumer) (st : IOCState)
    (size byteStart kbps : Nat) (h : SizeInv st) :
    st.bufferSize ≤ (_onLoaderChunkArrival C st size byteStart kbps).1.bufferSize ∧
    SizeInv (_onLoaderChunkArrival C st size byteStart kbps).1 := by
  obtain ⟨hi, hs⟩ := h
  unfold _onLoaderChunkArrival
  dsimp only
  split
  · exact ⟨Nat.le_refl _, hi, hs⟩
  · set stR := { st with lastByteStart := (byteStart : Int) } with hstR
    set recPair := if stR.isEarlyEofReconnecting then
        ({ stR with isEarlyEofReconnecting := false }, [IOAction.notifyRecovered])
      else (stR, ([] : List IOAction)) with hrec
    have hRfields : recPair.1.bufferSize = st.bufferSize ∧
        recPair.1.stashSize = st.stashSize ∧
        recPair.1.stashInitialSize = st.stashInitialSize := by
      rw [hrec]
      split <;> exact ⟨rfl, rfl, rfl⟩
    have hsp := arrivalSpeedPart_mono recPair.1 kbps (by omega)
    set stS := arrivalSpeedPart recPair.1 kbps with hstS
    split
    · have hd := arrivalStashDisabled_mono C stS size byteStart hsp.2.1
      refine ⟨?_, ?_, ?_⟩
      · calc st.bufferSize = recPair.1.bufferSize := hRfields.1.symm
          _ ≤ stS.bufferSize := hsp.1
          _ ≤ _ := hd.1
      · rw [hd.2.2, hsp.2.2, hRfields.2.2]
        exact hi
      · rw [hd.2.1]
        exact hsp.2.1
    · have hd := arrivalStashEnabled_mono C stS size byteStart hsp.2.1
      refine ⟨?_, ?_, ?_⟩
      · calc st.bufferSize = recPair.1.bufferSize := hRfields.1.symm
          _ ≤ stS.bufferSize := hsp.1
          _ ≤ _ := hd.1
      · rw [hd.2.2, hsp.2.2, hRfields.2.2]
        exact hi
      · rw [hd.2.1]
        exact hsp.2.1

/-- `_flushStashBuffer` changes only the stash occupancy and the confirmed
range; all other fields are untouched. -/
theorem _flushStashBuffer_fields (C : Consumer) (st : IOCState) (d : Bool) :
    (_flushStashBuffer C st d).1.bufferSize = st.bufferSize ∧
    (_flushStashBuffer C st d).1.stashSize = st.stashSize ∧
    (_flushStashBuffer C st d).1.stashInitialSize = st.stashInitialSize ∧
    (_flushStashBuffer C st d).1.isLive = st.isLive ∧
    (_flushStashBuffer C st d).1.totalLength = st.totalLength ∧
    (_flushStashBuffer C st d).1.isEarlyEofReconnecting = st.isEarlyEofReconnecting ∧
    (_flushStashBuffer C st d).1.loaderWorking = st.loaderWorking ∧
    (_flushStashBuffer C st d).1.lastByteStart = st.lastByteStart ∧
    (_flushStashBuffer C st d).1.paused = st.paused := by
  unfold _flushStashBuffer
  dsimp only [_dispatchChunks]
  split_ifs <;> simp

/-- The actions a flush emits are at most one dispatch, followed (only when
dropping) by one drop record. -/
theorem _flushStashBuffer_acts (C : Consumer) (st : IOCState) (d : Bool) :
    (_flushStashBuffer C st d).2.1 = [] ∨
    (∃ l s c, (_flushStashBuffer C st d).2.1 = [IOAction.dispatch l s c]) ∨
    (∃ l s c r, (_flushStashBuffer C st d).2.1 =
        [IOAction.dispatch l s c, IOAction.dropData r] ∧ d = true) := by
  unfold _flushStashBuffer
  dsimp only [_dispatchChunks]
  split_ifs with h1 h2 h3 h4
  · exact Or.inr (Or.inr ⟨_, _, _, _, rfl, h3⟩)
  · exact Or.inr (Or.inl ⟨_, _, _, rfl⟩)
  · exact Or.inr (Or.inl ⟨_, _, _, rfl⟩)
  · exact Or.inr (Or.inl ⟨_, _, _, rfl⟩)
  · exact Or.inl rfl

/-- A flush that keeps data emits no drop record. -/
theorem _flushStashBuffer_keep_no_drop (C : Consumer) (st : IOCState) :
    ∀ a ∈ (_flushStashBuffer C st false).2.1, a.isDispatch = true := by
  intro a ha
  rcases _flushStashBuffer_acts C st false with h | ⟨l, s, c, h⟩ | ⟨l, s, c, r, _, hfalse⟩
  · rw [h] at ha
    simp at ha
  · rw [h] at ha
    simp at ha
    rw [ha]
    rfl
  · cases hfalse

/-- `_internalSeek` preserves capacity, resets the stash target to the
configured initial size, and keeps identity fields. -/
theorem _internalSeek_fields (C : Consumer) (st : IOCState) (bytes : Int) (d : Bool) :
    (_internalSeek C st bytes d).1.bufferSize = st.bufferSize ∧
    (_internalSeek C st bytes d).1.stashSize = st.stashInitialSize ∧
    (_internalSeek C st bytes d).1.stashInitialSize = st.stashInitialSize ∧
    (_internalSeek C st bytes d).1.isEarlyEofReconnecting = st.isEarlyEofReconnecting ∧
    (_internalSeek C st bytes d).1.paused = st.paused := by
  have hf := _flushStashBuffer_fields C st d
  unfold _internalSeek
  dsimp only
  exact ⟨hf.1, hf.2.2.1, hf.2.2.1, hf.2.2.2.2.2.1, hf.2.2.2.2.2.2.2.2⟩

/-- Every controller operation keeps the backing capacity monotone and
preserves the size invariant. -/
theorem applyOp_mono (C : Consumer) (st : IOCState) (op : IOOp) (h : SizeInv st) :
    st.bufferSize ≤ (applyOp C st op).1.bufferSize ∧ SizeInv (applyOp C st op).1 := by
  obtain ⟨hi, hs⟩ := h
  cases op with
  | openFrom n =>
    exact ⟨Nat.le_refl _, hi, hs⟩
  | arrival size byteStart kbps =>
    exact _onLoaderChunkArrival_mono C st size byteStart kbps ⟨hi, hs⟩
  | contentLength n =>
    simp only [applyOp, _onContentLengthKnown]
    split <;> exact ⟨Nat.le_refl _, hi, hs⟩
  | seekTo bytes =>
    have hf := _internalSeek_fields C
      { st with paused := false, stashUsed := 0, stashByteStart := 0 } bytes true
    simp only [applyOp, seek]
    exact ⟨hf.1.ge, by rw [hf.2.2.1]; exact hi, by rw [hf.2.1]; exact hi⟩
  | pauseOp =>
    simp only [applyOp, pause]
    split_ifs <;> exact ⟨Nat.le_refl _, hi, hs⟩
  | resumeOp =>
    simp only [applyOp, resume]
    split
    · have hf := _internalSeek_fields C
        { st with paused := false, resumeFrom := 0 } st.resumeFrom true
      exact ⟨hf.1.ge, by rw [hf.2.2.1]; exact hi, by rw [hf.2.1]; exact hi⟩
    · exact ⟨Nat.le_refl _, hi, hs⟩
  | abortOp =>
    simp only [applyOp, ioAbort]
    split <;> exact ⟨Nat.le_refl _, hi, hs⟩
  | completeEvt =>
    have hf := _flushStashBuffer_fields C st true
    simp only [applyOp, _onLoaderComplete]
    split <;>
      exact ⟨hf.1.ge, by rw [hf.2.2.1]; exact hi, by rw [hf.2.1]; exact hs⟩
  | errorEvt ty =>
    have hf := _flushStashBuffer_fields C st false
    simp only [applyOp, _onLoaderError]
    split
    · exact ⟨hf.1.ge, by rw [hf.2.2.1]; exact hi, by rw [hf.2.1]; exact hs⟩
    · split
      · split
        · split
          · split
            · have hseek := _internalSeek_fields C
                { (_flushStashBuffer C st false).1 with isEarlyEofReconnecting := true }
                ((_flushStashBuffer C st false).1.rangeTo + 1) false
              refine ⟨?_, ?_, ?_⟩
              · rw [hseek.1]
                exact hf.1.ge
              · rw [hseek.2.2.1]
                show 1 ≤ (_flushStashBuffer C st false).1.stashInitialSize
                rw [hf.2.2.1]
                exact hi
              · rw [hseek.2.1]
                show 1 ≤ (_flushStashBuffer C st false).1.stashInitialSize
                rw [hf.2.2.1]
                exact hi
            · exact ⟨hf.1.ge, by rw [hf.2.2.1]; exact hi, by rw [hf.2.1]; exact hs⟩
          · exact ⟨hf.1.ge, by rw [hf.2.2.1]; exact hi, by rw [hf.2.1]; exact hs⟩
        · exact ⟨hf.1.ge, by rw [hf.2.2.1]; exact hi, by rw [hf.2.1]; exact hs⟩
      · exact ⟨hf.1.ge, by rw [hf.2.2.1]; exact hi, by rw [hf.2.1]; exact hs⟩

/-- Capacity monotonicity over any whole operation sequence. -/
theorem runOps_mono (C : Consumer) : ∀ (ops : List IOOp) (st : IOCState),
    SizeInv st → st.bufferSize ≤ (runOps C st ops).1.bufferSize := by
  intro ops
  induction ops with
  | nil =>
    intro st _
    exact Nat.le_refl _
  | cons op rest ih =>
    intro st h
    have h1 := applyOp_mono C st op h
    have h2 := ih (applyOp C st op).1 h1.2
    exact h1.1.trans h2

/-! ## Helper lemmas about the demuxer -/

/-- `_parseAVCVideoData` touches the video track only; every flag relevant to
the initial-metadata gate is preserved. -/
theorem _parseAVCVideoData_fields (st : DemuxState) (bytes : List Nat)
    (dOff dSz ts pos ft : Nat) (cts : Int) (st' : DemuxState)
    (h : _parseAVCVideoData st bytes dOff dSz ts pos ft cts = .ok st') :
    st'.audioInitialMetadataDispatched = st.audioInitialMetadataDispatched ∧
    st'.videoInitialMetadataDispatched = st.videoInitialMetadataDispatched ∧
    st'.hasAudio = st.hasAudio ∧ st'.hasVideo = st.hasVideo ∧
    st'.dispatchFlag = st.dispatchFlag ∧ st'.audioTrack = st.audioTrack := by
  unfold _parseAVCVideoData at h
  split at h
  · split at h
    · simp at h
    · injection h with h
      subst h
      exact ⟨rfl, rfl, rfl, rfl, rfl, rfl⟩
    · split at h
      · injection h with h
        subst h
        exact ⟨rfl, rfl, rfl, rfl, rfl, rfl⟩
      · injection h with h
        subst h
        exact ⟨rfl, rfl, rfl, rfl, rfl, rfl⟩
  · simp at h

/-- What a successful SPS parse does: flags relevant to the gate are
preserved and exactly the media-info and video-track-metadata notifications
are emitted, in that order. -/
theorem _parseAVCSPSVideoData_spec (pp : List Nat → SPSConfig) (st : DemuxState)
    (bytes : List Nat) (off : Nat) (st' : DemuxState) (evs : List DEvent)
    (h : _parseAVCSPSVideoData pp st bytes off = .ok (st', evs)) :
    st'.audioInitialMetadataDispatched = st.audioInitialMetadataDispatched ∧
    st'.videoInitialMetadataDispatched = st.videoInitialMetadataDispatched ∧
    st'.dispatchFlag = st.dispatchFlag ∧
    st'.hasAudio = st.hasAudio ∧
    st'.audioTrack = st.audioTrack ∧
    ∃ mi m, evs = [DEvent.mediaInfo mi, DEvent.trackMetadata "video" m] := by
  unfold _parseAVCSPSVideoData at h
  rcases hvm : st.videoMetadata with _ | m
  · rw [hvm] at h
    dsimp only at h
    split at h
    · simp only [Except.ok.injEq, Prod.mk.injEq] at h
      obtain ⟨h1, h2⟩ := h
      subst h1
      subst h2
      exact ⟨rfl, rfl, rfl, rfl, rfl, _, _, rfl⟩
    · simp at h
  · rw [hvm] at h
    dsimp only at h
    split at h
    · simp only [Except.ok.injEq, Prod.mk.injEq] at h
      obtain ⟨h1, h2⟩ := h
      subst h1
      subst h2
      exact ⟨rfl, rfl, rfl, rfl, rfl, _, _, rfl⟩
    · simp at h

/-- With both initial-metadata flags still unset, the sample-forwarding gate
is closed whatever the track-presence flags say. -/
theorem _isInitialMetadataDispatched_false (st : DemuxState)
    (ha : st.audioInitialMetadataDispatched = false)
    (hv : st.videoInitialMetadataDispatched = false) :
    _isInitialMetadataDispatched st = false := by
  unfold _isInitialMetadataDispatched
  rw [ha, hv]
  split_ifs <;> simp

/-- What one successful `_parseVideoData` call does to the gate flags and
which notifications it emits, by frame type. -/
theorem _parseVideoData_spec (pp : List Nat → SPSConfig) (st : DemuxState)
    (chunk : List Nat) (b : Nat) (st1 : DemuxState) (evs : List DEvent)
    (h : _parseVideoData pp st chunk b = .ok (st1, evs)) :
    st1.audioInitialMetadataDispatched = st.audioInitialMetadataDispatched ∧
    st1.videoInitialMetadataDispatched = st.videoInitialMetadataDispatched ∧
    ((naluTypeOf chunk = 7 ∧
        ∃ mi m, evs = [DEvent.mediaInfo mi, DEvent.trackMetadata "video" m]) ∨
      (naluTypeOf chunk ≠ 7 ∧ evs = [])) := by
  unfold _parseVideoData at h
  split at h
  · simp at h
  · rename_i ts _
    split at h
    · simp at h
    · rename_i hdr heq8
      have hhdr : hdr = chunk.getD 4 0 % 256 := by
        unfold dvGetUint8 at heq8
        split at heq8
        · exact (Except.ok.injEq _ _ ▸ heq8).symm
        · simp at heq8
      have htype : hdr &&& 31 = naluTypeOf chunk := by
        rw [hhdr]
        rfl
      dsimp only at h
      split at h
      · simp at h
      · rename_i r hsps
        obtain ⟨stS, evsS⟩ := r
        dsimp only at h
        split at hsps
        · rename_i h7
          split at h
          · simp at h
          · rename_i st2 hpkt
            simp only [Except.ok.injEq, Prod.mk.injEq] at h
            obtain ⟨h1, h2⟩ := h
            subst h1
            subst h2
            have hS := _parseAVCSPSVideoData_spec pp st chunk 5 stS evsS hsps
            have hV := _parseAVCVideoData_fields stS chunk 5 (chunk.length - 5)
              ts b (if hdr &&& 31 = 5 then 1 else 0) 0 st2 (by exact hpkt)
            refine ⟨hV.1.trans hS.1, hV.2.1.trans hS.2.1, Or.inl ⟨?_, hS.2.2.2.2.2⟩⟩
            rw [← htype]
            exact h7
        · rename_i h7
          simp only [Except.ok.injEq, Prod.mk.injEq] at hsps
          obtain ⟨hs1, hs2⟩ := hsps
          subst hs1
          subst hs2
          split at h
          · simp at h
          · rename_i st2 hpkt
            simp only [Except.ok.injEq, Prod.mk.injEq] at h
            obtain ⟨h1, h2⟩ := h
            subst h1
            subst h2
            have hV := _parseAVCVideoData_fields st chunk 5 (chunk.length - 5)
              ts b (if hdr &&& 31 = 5 then 1 else 0) 0 st2 (by exact hpkt)
            refine ⟨hV.1, hV.2.1, Or.inr ⟨?_, rfl⟩⟩
            rw [← htype]
            exact h7

/-- One `parseChunks` invocation with the gate flags still unset: the flags
stay unset, no samples-available notification fires, and the emitted
notifications are exactly the SPS pair for a type-7 frame and nothing
otherwise. -/
theorem parseChunks_step (pp : List Nat → SPSConfig) (st : DemuxState)
    (chunk : List Nat) (b : Nat) (st' : DemuxState) (evs : List DEvent) (n : Nat)
    (ha : st.audioInitialMetadataDispatched = false)
    (hv : st.videoInitialMetadataDispatched = false)
    (h : parseChunks pp st chunk b = .ok (st', evs, n)) :
    st'.audioInitialMetadataDispatched = false ∧
    st'.videoInitialMetadataDispatched = false ∧
    ((naluTypeOf chunk = 7 ∧
        ∃ mi m, evs = [DEvent.mediaInfo mi, DEvent.trackMetadata "video" m]) ∨
      (naluTypeOf chunk ≠ 7 ∧ evs = [])) := by
  unfold parseChunks at h
  split at h
  · simp at h
  · dsimp only at h
    generalize hstF :
      (if st.firstParse = true then { st with firstParse := false } else st) = stF at h
    have hFa : stF.audioInitialMetadataDispatched = false := by
      rw [← hstF]
      split
      · exact ha
      · exact ha
    have hFv : stF.videoInitialMetadataDispatched = false := by
      rw [← hstF]
      split
      · exact hv
      · exact hv
    split at h
    · simp at h
    · rename_i r hpv
      obtain ⟨st1, evs1⟩ := r
      dsimp only at h
      have hspec := _parseVideoData_spec pp stF chunk b st1 evs1 hpv
      have hgate := _isInitialMetadataDispatched_false st1
        (by rw [hspec.1]; exact hFa) (by rw [hspec.2.1]; exact hFv)
      rw [hgate] at h
      simp only [Bool.false_eq_true, if_false, List.append_nil,
        Except.ok.injEq, Prod.mk.injEq] at h
      obtain ⟨h1, h2, _⟩ := h
      subst h1
      subst h2
      exact ⟨by rw [hspec.1]; exact hFa, by rw [hspec.2.1]; exact hFv, hspec.2.2⟩

/-- Session-level event accounting while the gate flags are unset: one
media-info and one track-metadata notification per type-7 frame, and no
samples-available notification at all. -/
theorem runChunks_events (pp : List Nat → SPSConfig) :
    ∀ (chunks : List (List Nat × Nat)) (st stF : DemuxState) (evs : List DEvent),
      st.audioInitialMetadataDispatched = false →
      st.videoInitialMetadataDispatched = false →
      runChunks pp st chunks = .ok (stF, evs) →
      evs.countP DEvent.isMediaInfoEv =
        chunks.countP (fun p => naluTypeOf p.1 = 7) ∧
      evs.countP DEvent.isTrackMetaEv =
        chunks.countP (fun p => naluTypeOf p.1 = 7) ∧
      evs.countP DEvent.isDataAvailableEv = 0 := by
  intro chunks
  induction chunks with
  | nil =>
    intro st stF evs ha hv h
    unfold runChunks at h
    simp only [Except.ok.injEq, Prod.mk.injEq] at h
    obtain ⟨h1, h2⟩ := h
    subst h2
    simp
  | cons cb rest ih =>
    obtain ⟨c, b⟩ := cb
    intro st stF evs ha hv h
    unfold runChunks at h
    split at h
    · simp at h
    · rename_i r hpc
      split at h
      · simp at h
      · rename_i r2 hrc
        simp only [Except.ok.injEq, Prod.mk.injEq] at h
        obtain ⟨h1, h2⟩ := h
        subst h1
        subst h2
        obtain ⟨st1, evs1, n1⟩ := r
        obtain ⟨st2, evs2⟩ := r2
        have hstep := parseChunks_step pp st c b st1 evs1 n1 ha hv hpc
        have hrest := ih st1 st2 evs2 hstep.1 hstep.2.1 hrc
        have hcnt :
            evs1.countP DEvent.isMediaInfoEv =
              (if naluTypeOf c = 7 then 1 else 0) ∧
            evs1.countP DEvent.isTrackMetaEv =
              (if naluTypeOf c = 7 then 1 else 0) ∧
            evs1.countP DEvent.isDataAvailableEv = 0 := by
          rcases hstep.2.2 with ⟨h7, mi, m, hevs⟩ | ⟨h7, hevs⟩
          · subst hevs
            simp [h7, List.countP_cons, DEvent.isMediaInfoEv,
              DEvent.isTrackMetaEv, DEvent.isDataAvailableEv]
          · subst hevs
            simp [h7]
        simp only [List.countP_append, List.countP_cons]
        by_cases h7 : naluTypeOf c = 7
        all_goals simp only [hcnt.1, hcnt.2.1, hcnt.2.2, hrest.1, hrest.2.1, hrest.2.2]
        all_goals simp [h7]
        all_goals omega

/-- Action counting for flushes: never an open, an error, a completion or a
recovery notification; a drop record only when dropping was requested. -/
theorem _flushStashBuffer_countP (C : Consumer) (st : IOCState) (d : Bool) :
    (_flushStashBuffer C st d).2.1.countP IOAction.isOpen = 0 ∧
    (_flushStashBuffer C st d).2.1.countP IOAction.isErr = 0 ∧
    IOAction.notifyComplete ∉ (_flushStashBuffer C st d).2.1 ∧
    (d = false → (_flushStashBuffer C st d).2.1.countP IOAction.isDrop = 0) := by
  rcases _flushStashBuffer_acts C st d with hf | ⟨l, s, c, hf⟩ | ⟨l, s, c, r, hf, hd⟩ <;>
    rw [hf]
  · simp
  · simp [IOAction.isOpen, IOAction.isErr, IOAction.isDrop]
  · subst hd
    simp [IOAction.isOpen, IOAction.isErr, IOAction.isDrop]

/-- Action accounting for `_internalSeek`: exactly one loader open, at the
requested offset; no error is surfaced; and no drop record when the flush
keeps unconsumed data. -/
theorem _internalSeek_acts (C : Consumer) (st : IOCState) (bytes : Int) (d : Bool) :
    (_internalSeek C st bytes d).2.countP IOAction.isOpen = 1 ∧
    IOAction.openLoader bytes ∈ (_internalSeek C st bytes d).2 ∧
    (_internalSeek C st bytes d).2.countP IOAction.isErr = 0 ∧
    (d = false → (_internalSeek C st bytes d).2.countP IOAction.isDrop = 0) := by
  have hc := _flushStashBuffer_countP C st d
  unfold _internalSeek
  dsimp only
  refine ⟨?_, ?_, ?_, ?_⟩
  · simp only [List.countP_append, hc.1]
    split <;> simp [IOAction.isOpen]
  · simp
  · simp only [List.countP_append, hc.2.1]
    split <;> simp [IOAction.isErr]
  · intro hdf
    simp only [List.countP_append, hc.2.2.2 hdf]
    split <;> simp [IOAction.isDrop]

/-! ## Claim C1 -/

/-- Claim C1 refuted: in the stated scenario (stash enabled, 64 KiB target,
three 40 KiB chunks at offsets 0 / 40960 / 81920, every dispatch fully
consumed) the controller performs two dispatches, not one, and no dispatch
carries 80 KiB at offset 0. -/
theorem c1_single_dispatch_refuted :
    c1Run.2.countP IOAction.isDispatch = 2 ∧
    IOAction.dispatch 81920 0 81920 ∉ c1Run.2 := by decide

/-- Claim C1 as amended: the first chunk is only stashed; the arrival of the
second chunk dispatches the stashed 40 KiB at offset 0 and then stashes the
second chunk; the arrival of the third chunk dispatches the stashed 40 KiB at
offset 40960 and then stashes the third chunk, which is held (40960 bytes at
logical start 81920) until the next boundary. -/
theorem c1_two_dispatches :
    (runOps fullConsumer c1Start (c1Ops.take 1)).2 = [] ∧
    (runOps fullConsumer c1Start (c1Ops.take 2)).2 =
      [IOAction.dispatch 40960 0 40960] ∧
    c1Run.2 = [IOAction.dispatch 40960 0 40960,
               IOAction.dispatch 40960 40960 40960] ∧
    c1Run.1.stashUsed = 40960 ∧
    c1Run.1.stashByteStart = 81920 := by decide

/-! ## Claim C2 -/

/-- Claim C2: for every sequence of controller operations within one session
(data arrivals with tier-driven stash resizes, seeks, pauses, resumes,
reconnects, completion and error events), the capacity of the stash's backing
buffer never decreases. -/
theorem c2_capacity_monotone (C : Consumer) (ops : List IOOp) (st : IOCState)
    (h : SizeInv st) : st.bufferSize ≤ (runOps C st ops).1.bufferSize :=
  runOps_mono C ops st h

theorem c2_capacity_monotone_witness :
    SizeInv (initIOCState 393216 true false none) ∧
    (initIOCState 393216 true false none).bufferSize ≤
      (runOps fullConsumer (initIOCState 393216 true false none)
        [IOOp.arrival 65536 0 9000]).1.bufferSize :=
  ⟨by decide,
    c2_capacity_monotone fullConsumer [IOOp.arrival 65536 0 9000]
      (initIOCState 393216 true false none) (by decide)⟩

/-! ## Claim C3 -/

/-- Claim C3: a transient early EOF on a bounded source with known total
length and remaining bytes, while not already reconnecting, triggers exactly
one loader reopen at the next unreceived offset (the confirmed range end
after the flush, plus one); the controller marks itself reconnecting,
surfaces no error, and never drops unconsumed stash data.  Conversely, any
loader error arriving while the reconnecting flag is set is escalated to the
unrecoverable-early-eof kind and surfaced, with no further reopen. -/
theorem c3_early_eof_reconnect (C : Consumer) (st : IOCState) (T : Nat)
    (hlive : st.isLive = false) (htot : st.totalLength = some T)
    (hrec : st.isEarlyEofReconnecting = false)
    (hnext : (_flushStashBuffer C st false).1.rangeTo + 1 < (T : Int)) :
    ((_onLoaderError C st .earlyEof).2.countP IOAction.isOpen = 1 ∧
      IOAction.openLoader ((_flushStashBuffer C st false).1.rangeTo + 1) ∈
        (_onLoaderError C st .earlyEof).2 ∧
      (_onLoaderError C st .earlyEof).1.isEarlyEofReconnecting = true ∧
      (_onLoaderError C st .earlyEof).2.countP IOAction.isErr = 0 ∧
      (_onLoaderError C st .earlyEof).2.countP IOAction.isDrop = 0) ∧
    (∀ (st2 : IOCState) (ty : LoaderErrKind),
      st2.isEarlyEofReconnecting = true →
      IOAction.notifyError .unrecoverableEarlyEof ∈ (_onLoaderError C st2 ty).2 ∧
      (_onLoaderError C st2 ty).1.isEarlyEofReconnecting = false ∧
      (_onLoaderError C st2 ty).2.countP IOAction.isOpen = 0) := by
  constructor
  · have hff := _flushStashBuffer_fields C st false
    have hfc := _flushStashBuffer_countP C st false
    have hseekA := _internalSeek_acts C
      { (_flushStashBuffer C st false).1 with isEarlyEofReconnecting := true }
      ((_flushStashBuffer C st false).1.rangeTo + 1) false
    have hseekF := _internalSeek_fields C
      { (_flushStashBuffer C st false).1 with isEarlyEofReconnecting := true }
      ((_flushStashBuffer C st false).1.rangeTo + 1) false
    unfold _onLoaderError
    dsimp only
    split
    · rename_i hcon
      rw [hff.2.2.2.2.2.1, hrec] at hcon
      cases hcon
    · split
      · split
        · rename_i total htoteq
          rw [hff.2.2.2.2.1, htot] at htoteq
          injection htoteq with hTeq
          subst hTeq
          split
          · refine ⟨?_, ?_, ?_, ?_, ?_⟩
            · simp only [List.countP_append, hfc.1, hseekA.1]
            · simp only [List.mem_append]
              exact Or.inr hseekA.2.1
            · rw [hseekF.2.2.2.1]
            · simp only [List.countP_append, hfc.2.1, hseekA.2.2.1]
            · simp only [List.countP_append, hfc.2.2.2 rfl, hseekA.2.2.2 rfl]
          · rename_i hcon
            exact absurd hnext hcon
        · rename_i hnone
          rw [hff.2.2.2.2.1, htot] at hnone
          cases hnone
      · rename_i hcon
        rw [hff.2.2.2.1, hlive] at hcon
        exact absurd rfl hcon
  · intro st2 ty h2
    have hff := _flushStashBuffer_fields C st2 false
    have hfc := _flushStashBuffer_countP C st2 false
    unfold _onLoaderError
    dsimp only
    split
    · refine ⟨?_, rfl, ?_⟩
      · simp
      · simp only [List.countP_append, hfc.1]
        simp [IOAction.isOpen]
    · rename_i hcon
      rw [hff.2.2.2.2.2.1, h2] at hcon
      exact absurd rfl hcon

theorem c3_early_eof_reconnect_witness :
    (((_onLoaderError fullConsumer c3WitnessState .earlyEof).2.countP
        IOAction.isOpen = 1 ∧
      IOAction.openLoader
          ((_flushStashBuffer fullConsumer c3WitnessState false).1.rangeTo + 1) ∈
        (_onLoaderError fullConsumer c3WitnessState .earlyEof).2 ∧
      (_onLoaderError fullConsumer c3WitnessState
          .earlyEof).1.isEarlyEofReconnecting = true ∧
      (_onLoaderError fullConsumer c3WitnessState .earlyEof).2.countP
        IOAction.isErr = 0 ∧
      (_onLoaderError fullConsumer c3WitnessState .earlyEof).2.countP
        IOAction.isDrop = 0) ∧
    (∀ (st2 : IOCState) (ty : LoaderErrKind),
      st2.isEarlyEofReconnecting = true →
      IOAction.notifyError .unrecoverableEarlyEof ∈
        (_onLoaderError fullConsumer st2 ty).2 ∧
      (_onLoaderError fullConsumer st2 ty).1.isEarlyEofReconnecting = false ∧
      (_onLoaderError fullConsumer st2 ty).2.countP IOAction.isOpen = 0)) :=
  c3_early_eof_reconnect fullConsumer c3WitnessState 100000 rfl rfl rfl (by decide)

/-! ## Claim C5 -/

/-- Claim C5: `pause()` takes effect only while the controller is working (a
no-op otherwise); it aborts the transport and sets the resume offset to the
stash's logical start when the stash holds unforwarded bytes, else to one past
the last confirmed received byte; a subsequent `resume()` clears the paused
state and reopens the transport exactly once, at exactly that offset. -/
theorem c5_pause_resume_offset (C : Consumer) (st : IOCState)
    (hw : st.loaderWorking = true) (hp : st.paused = false) :
    IOAction.abortLoader ∈ (pause st).2 ∧
    (st.stashUsed ≠ 0 → (pause st).1.resumeFrom = (st.stashByteStart : Int)) ∧
    (st.stashUsed = 0 → (pause st).1.resumeFrom = st.rangeTo + 1) ∧
    (pause st).1.paused = true ∧
    (resume C (pause st).1).1.paused = false ∧
    IOAction.openLoader (pause st).1.resumeFrom ∈ (resume C (pause st).1).2 ∧
    (resume C (pause st).1).2.countP IOAction.isOpen = 1 ∧
    (∀ st2 : IOCState, ctlIsWorking st2 = false → pause st2 = (st2, [])) := by
  have hcw : ctlIsWorking st = true := by
    simp [ctlIsWorking, hw, hp]
  by_cases hsu : st.stashUsed = 0
  · refine ⟨?_, ?_, ?_, ?_, ?_, ?_, ?_, ?_⟩ <;>
      simp [pause, resume, _internalSeek, _flushStashBuffer, ctlIsWorking,
        hw, hp, hsu, IOAction.isOpen, List.countP_cons]
  · refine ⟨?_, ?_, ?_, ?_, ?_, ?_, ?_, ?_⟩ <;>
      simp [pause, resume, _internalSeek, _flushStashBuffer, ctlIsWorking,
        hw, hp, hsu, IOAction.isOpen, List.countP_cons]

theorem c5_pause_resume_offset_witness :
    IOAction.abortLoader ∈ (pause c5WitnessState).2 ∧
    (c5WitnessState.stashUsed ≠ 0 →
      (pause c5WitnessState).1.resumeFrom = (c5WitnessState.stashByteStart : Int)) ∧
    (c5WitnessState.stashUsed = 0 →
      (pause c5WitnessState).1.resumeFrom = c5WitnessState.rangeTo + 1) ∧
    (pause c5WitnessState).1.paused = true ∧
    (resume fullConsumer (pause c5WitnessState).1).1.paused = false ∧
    IOAction.openLoader (pause c5WitnessState).1.resumeFrom ∈
      (resume fullConsumer (pause c5WitnessState).1).2 ∧
    (resume fullConsumer (pause c5WitnessState).1).2.countP IOAction.isOpen = 1 ∧
    (∀ st2 : IOCState, ctlIsWorking st2 = false → pause st2 = (st2, [])) :=
  c5_pause_resume_offset fullConsumer c5WitnessState rfl rfl

/-! ## Claim C7 -/

/-- A force-flush always empties the stash. -/
theorem _flushStashBuffer_drop_used (C : Consumer) (st : IOCState) :
    (_flushStashBuffer C st true).1.stashUsed = 0 := by
  unfold _flushStashBuffer
  dsimp only [_dispatchChunks]
  split_ifs <;> simp_all

/-- Claim C7 refuted: a session that delivers a single zero-length chunk and
then completes has received zero bytes, yet the controller notifies
completion and surfaces no connecting-timeout error (`lastByteStart` records
the arrival of any chunk, bytes or not). -/
theorem c7_zero_byte_complete :
    receivedBytes c7Ops = 0 ∧
    IOAction.notifyComplete ∈ c7Run.2 ∧
    c7Run.2.countP IOAction.isErr = 0 := by decide

/-- Claim C7 as amended: on transport completion the controller force-flushes
the stash, discarding any unconsumed remainder (the stash ends empty); if at
least one data-arrival notification was ever delivered — even a zero-length
one, i.e. `lastByteStart ≥ 0` — it notifies completion and surfaces no
error, and only when no arrival was ever recorded does it notify the
connecting-timeout ("no signal") error. -/
theorem c7_complete_amended (C : Consumer) (st : IOCState) :
    (_onLoaderComplete C st).1.stashUsed = 0 ∧
    (0 ≤ st.lastByteStart →
      IOAction.notifyComplete ∈ (_onLoaderComplete C st).2 ∧
      (_onLoaderComplete C st).2.countP IOAction.isErr = 0) ∧
    (st.lastByteStart < 0 →
      IOAction.notifyError .connectingTimeout ∈ (_onLoaderComplete C st).2 ∧
      IOAction.notifyComplete ∉ (_onLoaderComplete C st).2) := by
  have hff := _flushStashBuffer_fields C st true
  have hfc := _flushStashBuffer_countP C st true
  have hdu := _flushStashBuffer_drop_used C st
  unfold _onLoaderComplete
  dsimp only
  refine ⟨?_, ?_, ?_⟩
  · split <;> exact hdu
  · intro hlb
    split
    · refine ⟨by simp, ?_⟩
      simp only [List.countP_append, hfc.2.1]
      simp [IOAction.isErr]
    · rename_i hcon
      rw [hff.2.2.2.2.2.2.2.1] at hcon
      exact absurd hlb hcon
  · intro hlb
    split
    · rename_i hcon
      rw [hff.2.2.2.2.2.2.2.1] at hcon
      omega
    · refine ⟨by simp, ?_⟩
      simp only [List.mem_append, not_or]
      refine ⟨hfc.2.2.1, by simp⟩

theorem c7_complete_amended_witness :
    ((_onLoaderComplete fullConsumer c3WitnessState).1.stashUsed = 0 ∧
      (0 ≤ c3WitnessState.lastByteStart →
        IOAction.notifyComplete ∈ (_onLoaderComplete fullConsumer c3WitnessState).2 ∧
        (_onLoaderComplete fullConsumer c3WitnessState).2.countP IOAction.isErr = 0) ∧
      (c3WitnessState.lastByteStart < 0 →
        IOAction.notifyError .connectingTimeout ∈
          (_onLoaderComplete fullConsumer c3WitnessState).2 ∧
        IOAction.notifyComplete ∉ (_onLoaderComplete fullConsumer c3WitnessState).2)) ∧
    ((_onLoaderComplete fullConsumer c7Start).1.stashUsed = 0 ∧
      (0 ≤ c7Start.lastByteStart →
        IOAction.notifyComplete ∈ (_onLoaderComplete fullConsumer c7Start).2 ∧
        (_onLoaderComplete fullConsumer c7Start).2.countP IOAction.isErr = 0) ∧
      (c7Start.lastByteStart < 0 →
        IOAction.notifyError .connectingTimeout ∈
          (_onLoaderComplete fullConsumer c7Start).2 ∧
        IOAction.notifyComplete ∉ (_onLoaderComplete fullConsumer c7Start).2)) :=
  ⟨c7_complete_amended fullConsumer c3WitnessState,
   c7_complete_amended fullConsumer c7Start⟩

/-! ## Claim C8 -/

/-- Claim C8 is what the spec demands, but the code contradicts it: on a
zero-length chunk `_parseVideoData` unconditionally reads a 4-byte timestamp
from the empty buffer, so `parseChunks` raises a range error instead of
returning 0 consumed bytes. -/
theorem c8_zero_length_chunk_errors :
    parseChunks constSpsParse (initH264DemuxState true) [] 0 =
      .error .rangeError ∧
    parseChunks constSpsParse (initH264DemuxState false) [] 0 =
      .error .rangeError := by decide

/-! ## Claim C9 -/

/-- Claim C9: whenever `parseChunks` returns normally, the consumed-byte
count it reports is the chunk's full byte length — the demuxer never reports
partial consumption. -/
theorem c9_full_consumption (pp : List Nat → SPSConfig) (st : DemuxState)
    (chunk : List Nat) (b : Nat) (r : DemuxState × List DEvent × Nat)
    (h : parseChunks pp st chunk b = .ok r) : r.2.2 = chunk.length := by
  unfold parseChunks at h
  split at h
  · simp at h
  · dsimp only at h
    split at h
    · simp at h
    · simp only [Except.ok.injEq] at h
      rw [← h]

theorem c9_full_consumption_witness :
    (({ initH264DemuxState true with firstParse := false }, ([] : List DEvent),
        9) : DemuxState × List DEvent × Nat).2.2 = c9Chunk.length :=
  c9_full_consumption constSpsParse (initH264DemuxState true) c9Chunk 0
    ({ initH264DemuxState true with firstParse := false }, [], 9) (by decide)

/-! ## Claim C10 -/

/-- Claim C10: while working, `pause()` zeroes the stash occupancy and its
logical start without dispatching anything downstream; the stashed bytes are
recovered only through the recorded resume offset, which is exactly the
stash's logical start. -/
theorem c10_pause_discards_stash (st : IOCState)
    (hw : st.loaderWorking = true) (hp : st.paused = false)
    (hs : st.stashUsed ≠ 0) :
    (pause st).1.stashUsed = 0 ∧
    (pause st).1.stashByteStart = 0 ∧
    (pause st).2.countP IOAction.isDispatch = 0 ∧
    (pause st).1.resumeFrom = (st.stashByteStart : Int) := by
  have hcw : ctlIsWorking st = true := by
    simp [ctlIsWorking, hw, hp]
  refine ⟨?_, ?_, ?_, ?_⟩ <;>
    simp [pause, hcw, hs, IOAction.isDispatch, List.countP_cons]

theorem c10_pause_discards_stash_witness :
    (pause c5WitnessState).1.stashUsed = 0 ∧
    (pause c5WitnessState).1.stashByteStart = 0 ∧
    (pause c5WitnessState).2.countP IOAction.isDispatch = 0 ∧
    (pause c5WitnessState).1.resumeFrom = (c5WitnessState.stashByteStart : Int) :=
  c10_pause_discards_stash c5WitnessState rfl rfl (by decide)

/-! ## Claim C4 -/

/-- Claim C4: in any session from demuxer creation whose chunks all parse
successfully and that contains exactly one type-7 (SPS) frame, positioned
before any type-5 frame, exactly one media-info and exactly one
video-track-metadata notification are emitted, and every samples-available
notification (there are in fact none: this source never sets the
initial-metadata-dispatched flags) comes after both. -/
theorem c4_sps_metadata_once (pp : List Nat → SPSConfig) (le : Bool)
    (chunks : List (List Nat × Nat))
    (h1 : chunksOk (runChunks pp (initH264DemuxState le) chunks) = true)
    (h2 : chunks.countP (fun p => naluTypeOf p.1 = 7) = 1)
    (h3 : ∀ i, i < chunks.length → ∀ j, j < chunks.length →
      naluTypeOf (chunks.getD i ([], 0)).1 = 7 →
      naluTypeOf (chunks.getD j ([], 0)).1 = 5 → i < j) :
    (chunksEventsOf (runChunks pp (initH264DemuxState le) chunks)).countP
        DEvent.isMediaInfoEv = 1 ∧
    (chunksEventsOf (runChunks pp (initH264DemuxState le) chunks)).countP
        DEvent.isTrackMetaEv = 1 ∧
    (∀ k,
      k < (chunksEventsOf (runChunks pp (initH264DemuxState le) chunks)).length →
      ((chunksEventsOf (runChunks pp (initH264DemuxState le) chunks)).getD k
          DEvent.dataAvailable).isDataAvailableEv = true →
      (∃ i, i < k ∧
        ((chunksEventsOf (runChunks pp (initH264DemuxState le) chunks)).getD i
          DEvent.dataAvailable).isMediaInfoEv = true) ∧
      (∃ j, j < k ∧
        ((chunksEventsOf (runChunks pp (initH264DemuxState le) chunks)).getD j
          DEvent.dataAvailable).isTrackMetaEv = true)) := by
  rcases hrun : runChunks pp (initH264DemuxState le) chunks with f | r
  · rw [hrun] at h1
    simp [chunksOk] at h1
  · obtain ⟨stF, evs⟩ := r
    have hev := runChunks_events pp chunks (initH264DemuxState le) stF evs rfl rfl hrun
    simp only [chunksEventsOf]
    refine ⟨by rw [hev.1, h2], by rw [hev.2.1, h2], ?_⟩
    intro k hk hDA
    exfalso
    have hmem : evs.getD k DEvent.dataAvailable ∈ evs := by
      rw [List.getD_eq_getElem evs DEvent.dataAvailable hk]
      exact List.getElem_mem hk
    have := List.countP_eq_zero.mp hev.2.2 _ hmem
    rw [hDA] at this
    exact this rfl

theorem c4_sps_metadata_once_witness :
    (chunksEventsOf (runChunks constSpsParse (initH264DemuxState true)
        c4Chunks)).countP DEvent.isMediaInfoEv = 1 ∧
    (chunksEventsOf (runChunks constSpsParse (initH264DemuxState true)
        c4Chunks)).countP DEvent.isTrackMetaEv = 1 ∧
    (∀ k,
      k < (chunksEventsOf (runChunks constSpsParse (initH264DemuxState true)
          c4Chunks)).length →
      ((chunksEventsOf (runChunks constSpsParse (initH264DemuxState true)
          c4Chunks)).getD k DEvent.dataAvailable).isDataAvailableEv = true →
      (∃ i, i < k ∧
        ((chunksEventsOf (runChunks constSpsParse (initH264DemuxState true)
          c4Chunks)).getD i DEvent.dataAvailable).isMediaInfoEv = true) ∧
      (∃ j, j < k ∧
        ((chunksEventsOf (runChunks constSpsParse (initH264DemuxState true)
          c4Chunks)).getD j DEvent.dataAvailable).isTrackMetaEv = true)) :=
  c4_sps_metadata_once constSpsParse true c4Chunks (by decide) (by decide)
    (by decide)

/-! ## Claim C6 -/

/-- Claim C6 refuted: in the 25-byte buffer `c6Bytes` viewed at offset 5 with
payload size 20, the unit at scan offset 6 declares 12 payload bytes — more
than the `20 - 6 - 4 = 10` bytes remaining — yet instead of stopping with a
log the scan throws a fatal range error, because the source's oversize guard
compares the declared length against `dataSize - lengthSize = 16` rather than
against the remaining payload. -/
theorem c6_oversize_unit_error :
    _parseAVCVideoData (initH264DemuxState true) c6Bytes 5 20 0 0 0 0 =
      .error .rangeError ∧
    20 - (6 + 4) < 12 := by decide

/-- Claim C6 as amended, at any scan offset.  First conjunct: whenever four
or fewer bytes remain before the next unit (the source checks a fixed
`offset + 4 >= dataSize` whatever the prefix width), the scan stops for the
frame quietly with exactly the units accumulated so far — no unit from that
position, no error.  Second conjunct: whenever the unit declared at the
current offset exceeds `dataSize - lengthSize`, the scan abandons the whole
frame (the logged early `return`).  Third conjunct: an abandoned frame makes
`_parseAVCVideoData` return without error, without a sample, with the state
untouched.  Fourth conjunct: a quietly stopped scan never produces a
frame-level error either.  The contrast — a unit whose declared length
exceeds the payload remaining at its offset while staying within
`dataSize - lengthSize` raises a fatal range error — is the counterexample
theorem. -/
theorem c6_scan_abort_amended :
    (∀ (little : Bool) (lengthSize : Nat) (bytes : List Nat)
        (dOff dSz fuel offset : Nat) (acc : ScanAcc),
      dSz ≤ offset + 4 →
      scanNalus little lengthSize bytes dOff dSz (fuel + 1) offset acc =
        .ok (some acc)) ∧
    (∀ (little : Bool) (lengthSize : Nat) (bytes : List Nat)
        (dOff dSz fuel offset n : Nat) (acc : ScanAcc),
      offset + 4 < dSz →
      dvGetUint32 little bytes dOff dSz offset = .ok n →
      dSz - lengthSize < (if lengthSize = 3 then n / 256 else n) →
      scanNalus little lengthSize bytes dOff dSz (fuel + 1) offset acc =
        .ok none) ∧
    (∀ (st : DemuxState) (bytes : List Nat) (dOff dSz ts pos ft : Nat)
        (cts : Int),
      dOff + dSz ≤ bytes.length →
      scanNalus (!st.littleEndian) st.naluLengthSize bytes dOff dSz (dSz + 1) 0
        { units := [], length := 0, keyframe := ft = 1 } = .ok none →
      _parseAVCVideoData st bytes dOff dSz ts pos ft cts = .ok st) ∧
    (∀ (st : DemuxState) (bytes : List Nat) (dOff dSz ts pos ft : Nat)
        (cts : Int) (acc : ScanAcc),
      dOff + dSz ≤ bytes.length →
      scanNalus (!st.littleEndian) st.naluLengthSize bytes dOff dSz (dSz + 1) 0
        { units := [], length := 0, keyframe := ft = 1 } = .ok (some acc) →
      ∃ st', _parseAVCVideoData st bytes dOff dSz ts pos ft cts = .ok st') := by
  refine ⟨?_, ?_, ?_, ?_⟩
  · intro little lengthSize bytes dOff dSz fuel offset acc hshort
    rw [scanNalus]
    by_cases h0 : offset < dSz
    · rw [if_pos h0, if_pos hshort]
    · rw [if_neg h0]
  · intro little lengthSize bytes dOff dSz fuel offset n acc hlt hread hover
    rw [scanNalus]
    rw [if_pos (by omega : offset < dSz),
      if_neg (by omega : ¬ dSz ≤ offset + 4), hread]
    dsimp only
    rw [if_pos hover]
  · intro st bytes dOff dSz ts pos ft cts hbound hscan
    unfold _parseAVCVideoData
    rw [if_pos hbound, hscan]
  · intro st bytes dOff dSz ts pos ft cts acc hbound hscan
    unfold _parseAVCVideoData
    rw [if_pos hbound, hscan]
    dsimp only
    split
    · exact ⟨_, rfl⟩
    · exact ⟨_, rfl⟩

theorem c6_scan_abort_amended_witness :
    scanNalus false 4 c6Bytes 5 20 3 17
        { units := [], length := 0, keyframe := false } =
      .ok (some { units := [], length := 0, keyframe := false }) ∧
    scanNalus false 4 c6Bytes 5 15 3 6
        { units := [], length := 0, keyframe := false } = .ok none ∧
    _parseAVCVideoData (initH264DemuxState true) c6Bytes 5 15 0 0 0 0 =
      .ok (initH264DemuxState true) ∧
    (∃ st', _parseAVCVideoData (initH264DemuxState true) c6Bytes 5 10 0 0 0 0 =
      .ok st') :=
  ⟨c6_scan_abort_amended.1 false 4 c6Bytes 5 20 2 17
      { units := [], length := 0, keyframe := false } (by decide),
    c6_scan_abort_amended.2.1 false 4 c6Bytes 5 15 2 6 12
      { units := [], length := 0, keyframe := false }
      (by decide) (by decide) (by decide),
    c6_scan_abort_amended.2.2.1 (initH264DemuxState true) c6Bytes 5 15 0 0 0 0
      (by decide) (by decide),
    c6_scan_abort_amended.2.2.2 (initH264DemuxState true) c6Bytes 5 10 0 0 0 0
      { units := [{ utype := 1, data := [0, 0, 0, 2, 1, 9] }], length := 6,
        keyframe := false }
      (by decide) (by decide)⟩
